import Mathlib

/-!
Shallow embedding of the AArch64 emulator core of davidly/ArmOS
(src/arm64.hxx) and verification of its specification claims.

Conventions of the embedding:
* C `uint64_t` values are `Nat` kept below `2^64`; arithmetic that can wrap
  is followed by `% M64`.  `uint32_t` likewise with `M32`.
* C signed types are modelled through `toInt64` / `toInt32`
  (two's-complement reinterpretation as `Int`).
* A C shift by an amount `≥` the width of the operand type is undefined
  behaviour; the embedding resolves it to 0 ("all bits shifted out"), which
  agrees with `Nat.shiftRight` and with `x <<< k % 2^w` mathematically.
* The fatal-termination hook `arm64_hard_termination` (reached through
  `unhandled()`) does not return; it is modelled by an explicit error value.
-/

namespace ArmOS

def M64 : Nat := 18446744073709551616

def M32 : Nat := 4294967296

/-- `get_bits` from arm64.hxx: `(x >> lowbit) & ((1ull << len) - 1)`, with
`len == 64` returning the shifted value unmasked. -/
def get_bits (x lowbit len : Nat) : Nat :=
  let val := Nat.shiftRight x lowbit
  bif Nat.beq len 64 then val else Nat.land val (Nat.shiftLeft 1 len - 1)

/-- `get_bit` from arm64.hxx: `(x >> bit_number) & 1`. -/
def get_bit (x bit_number : Nat) : Nat := (x >>> bit_number) &&& 1

/-- `one_bits` from arm64.hxx: `bits` low one bits. -/
def one_bits (bits : Nat) : Nat :=
  if bits = 64 then M64 - 1 else (1 <<< bits) - 1

/-- `replicate_bits` from arm64.hxx: all-ones of width `len` if `val != 0`. -/
def replicate_bits (val len : Nat) : Nat :=
  if val ≠ 0 then one_bits len else 0

/-- Member `opbits` of `Arm64`: bits `lowbit .. lowbit+len-1` of the current
32-bit opcode (callers never pass `len == 64`). -/
def opbits (op lowbit len : Nat) : Nat := (op >>> lowbit) &&& ((1 <<< len) - 1)

/-- C unary `~` on a `uint64_t` value `v < 2^64`. -/
def c_not64 (v : Nat) : Nat := (M64 - 1) - v % M64

/-- `sign_extend` from arm64.hxx, returned as the two's-complement `uint64_t`
bit pattern of the C `int64_t` result:
`x &= (1 << (high_bit+1)) - 1; m = 1 << high_bit; return (x ^ m) - m`. -/
def sign_extend (x high_bit : Nat) : Nat :=
  let x' := x &&& ((1 <<< (high_bit + 1)) - 1)
  let m := 1 <<< high_bit
  ((x' ^^^ m) + (M64 - m)) % M64

/-- Reinterpret a `uint64_t` value (`v < 2^64`) as a C `int64_t`. -/
def toInt64 (v : Nat) : Int :=
  if v < 2 ^ 63 then (v : Int) else (v : Int) - (M64 : Int)

/-- Reinterpret a `uint32_t` value (`v < 2^32`) as a C `int32_t`. -/
def toInt32 (v : Nat) : Int :=
  if v < 2 ^ 31 then (v : Int) else (v : Int) - (M32 : Int)

/-- C `<<` on `uint64_t`: wraps modulo `2^64`; a shift count `≥ 64` is C
undefined behaviour, resolved here to 0 (the value with all bits shifted
out, which equals `(v <<< k) % 2^64` mathematically). -/
def shl64 (v k : Nat) : Nat := bif Nat.blt k 64 then Nat.mod (Nat.shiftLeft v k) M64 else 0

/-- C `<<` on `uint32_t` (or a value truncated to 32 bits): analogous. -/
def shl32 (v k : Nat) : Nat := bif Nat.blt k 32 then Nat.mod (Nat.shiftLeft v k) M32 else 0

/-- C `>>` on `int64_t` (arithmetic shift, as produced by "modern C
compilers" per the source comment), on the `uint64_t` bit pattern:
`~(~v >> k)` for negative `v`.  Total in `k`. -/
def asr64 (v k : Nat) : Nat :=
  if v % M64 < 2 ^ 63 then (v % M64) >>> k
  else (M64 - 1) - ((M64 - 1 - v % M64) >>> k)

/-- C `>>` on `int32_t`, on the `uint32_t` bit pattern. -/
def asr32 (v k : Nat) : Nat :=
  if v % M32 < 2 ^ 31 then (v % M32) >>> k
  else (M32 - 1) - ((M32 - 1 - v % M32) >>> k)

/-- The two bits of the process-wide control word `g_State`. -/
def stateTraceInstructions : Nat := 1

def stateEndEmulation : Nat := 2

/-- Machine state of the emulated hart (fields of `class Arm64` used by the
integer/branch subset embedded here).  The process-wide control word
`g_State` is folded into the state record, as §9 of the spec suggests. -/
structure Arm64 where
  regs : Nat → Nat
  pc : Nat
  fN : Bool
  fZ : Bool
  fC : Bool
  fV : Bool
  cycles_so_far : Nat
  gState : Nat

/-- `regs[d] = v` (register indices are 5-bit fields, so `d < 32`). -/
def Arm64.setReg (s : Arm64) (d v : Nat) : Arm64 :=
  { s with regs := fun i => if i = d then v else s.regs i }

/-- `val_reg_or_zr` from arm64.hxx: register read in zero-register context. -/
def Arm64.val_reg_or_zr (s : Arm64) (r : Nat) : Nat :=
  if r = 31 then 0 else s.regs r

/-- The four condition flags. -/
structure NZCV where
  N : Bool
  Z : Bool
  C : Bool
  V : Bool

/-- The flag computation inside `add_with_carry64` (the `if (setflags)`
block of the source, including its "strangely literal" carry computation
through 32-bit halves). -/
def add_with_carry64_flags (x y : Nat) (carry : Bool) : NZCV :=
  let c : Nat := if carry then 1 else 0
  let result := (x + y + c) % M64
  let fN := decide (toInt64 result < 0)
  let fZ := decide (result = 0)
  let uy := (y + c) % M64
  let u_low := (x &&& 0xffffffff) + (uy &&& 0xffffffff)
  let u_low_carry := u_low >>> 32
  let carry_carry : Nat := if y = 0xffffffffffffffff ∧ carry = true then 1 else 0
  let u_hi := (x >>> 32) + (uy >>> 32) + u_low_carry + carry_carry
  let u_sum := ((u_hi <<< 32) % M64) ||| (0xffffffff &&& u_low)
  let fC := decide (result ≠ u_sum ∨ u_hi >>> 32 ≠ 0)
  let ix := toInt64 x
  let iy := toInt64 y
  let iresult := toInt64 result
  let fV := decide (((0 ≤ ix ∧ 0 ≤ iy) ∧ (iresult < ix ∨ iresult < iy)) ∨
                    ((ix < 0 ∧ iy < 0) ∧ (ix < iresult ∨ iy < iresult)))
  { N := fN, Z := fZ, C := fC, V := fV }

/-- `add_with_carry64` from arm64.hxx.  Returns the updated machine (flags
written when `setflags`) and the `uint64_t` result. -/
def Arm64.add_with_carry64 (s : Arm64) (x y : Nat) (carry setflags : Bool) :
    Arm64 × Nat :=
  let c : Nat := if carry then 1 else 0
  let result := (x + y + c) % M64
  if setflags then
    let fl := add_with_carry64_flags x y carry
    ({ s with fN := fl.N, fZ := fl.Z, fC := fl.C, fV := fl.V }, result)
  else (s, result)

/-- `sub64` from arm64.hxx: `add_with_carry64(x, ~y, true, setflags)`. -/
def Arm64.sub64 (s : Arm64) (x y : Nat) (setflags : Bool) : Arm64 × Nat :=
  s.add_with_carry64 x (c_not64 y) true setflags

/-- The flag computation inside `add_with_carry32` (which the source notes
follows the Arm documentation's method). -/
def add_with_carry32_flags (x y : Nat) (carry : Bool) : NZCV :=
  let c : Nat := if carry then 1 else 0
  let unsigned_sum := x + y + c
  let result := unsigned_sum &&& 0xffffffff
  let fN := decide (toInt32 result < 0)
  let fZ := decide (result = 0)
  let fC := decide (result ≠ unsigned_sum)
  let signed_sum := toInt32 (x % M32) + toInt32 (y % M32) + (c : Int)
  let fV := decide (toInt32 result ≠ signed_sum)
  { N := fN, Z := fZ, C := fC, V := fV }

/-- `add_with_carry32` from arm64.hxx. -/
def Arm64.add_with_carry32 (s : Arm64) (x y : Nat) (carry setflags : Bool) :
    Arm64 × Nat :=
  let c : Nat := if carry then 1 else 0
  let unsigned_sum := x + y + c
  let result := unsigned_sum &&& 0xffffffff
  if setflags then
    let fl := add_with_carry32_flags x y carry
    ({ s with fN := fl.N, fZ := fl.Z, fC := fl.C, fV := fl.V }, result)
  else (s, result)

/-- `sub32` from arm64.hxx: `add_with_carry32(x, ~y, true, setflags)`
(the C `~` on a `uint32_t` promoted value keeps 32 bits). -/
def Arm64.sub32 (s : Arm64) (x y : Nat) (setflags : Bool) : Arm64 × Nat :=
  s.add_with_carry32 x ((M32 - 1) - y % M32) true setflags

/-- `shift_reg64` from arm64.hxx.  `none` models the `unhandled()` call for a
shift type `> 3` (unreachable from callers, which pass 2-bit fields). -/
def Arm64.shift_reg64 (s : Arm64) (reg shift_type amount0 : Nat) : Option Nat :=
  let val := if reg = 31 then 0 else s.regs reg
  let amount := amount0 &&& 0x7f
  if amount = 0 then some val
  else if shift_type = 0 then some (shl64 val amount)
  else if shift_type = 1 then some (val >>> amount)
  else if shift_type = 2 then some (asr64 val amount)
  else if shift_type = 3 then
    some ((val >>> amount) ||| shl64 val ((64 + M64 - amount) % M64))
  else none

/-- `shift_reg32` from arm64.hxx. -/
def Arm64.shift_reg32 (s : Arm64) (reg shift_type amount0 : Nat) : Option Nat :=
  let val := if reg = 31 then 0 else (s.regs reg) &&& 0xffffffff
  let amount := amount0 &&& 0x3f
  if amount = 0 then some val
  else if shift_type = 0 then some (shl32 val amount)
  else if shift_type = 1 then some (val >>> amount)
  else if shift_type = 2 then some (asr32 val amount)
  else if shift_type = 3 then
    some ((val >>> amount) ||| shl32 val ((32 + M64 - amount) % M64))
  else none

/-- `check_conditional` from arm64.hxx: AArch64 condition-code evaluation.
The default case (`chk == 7`, AL) returns true without applying the low-bit
inversion. -/
def Arm64.check_conditional (s : Arm64) (cond : Nat) : Bool :=
  let chk := (cond >>> 1) &&& 7
  if chk = 7 then true
  else
    let met :=
      if chk = 0 then s.fZ
      else if chk = 1 then s.fC
      else if chk = 2 then s.fN
      else if chk = 3 then s.fV
      else if chk = 4 then s.fC && !s.fZ
      else if chk = 5 then s.fN == s.fV
      else (s.fN == s.fV) && !s.fZ
    if cond &&& 1 ≠ 0 then !met else met

/-- `extend_reg` from arm64.hxx: extend + shift of an operand register
(zero-register read context).  The `default: unhandled()` arm is `none`
(unreachable: callers pass 3-bit extend types). -/
def Arm64.extend_reg (s : Arm64) (m extend_type shift : Nat) : Option Nat :=
  let x := if m = 31 then 0 else s.regs m
  let ext :=
    if extend_type = 0 then some (x &&& 0xff)
    else if extend_type = 1 then some (x &&& 0xffff)
    else if extend_type = 2 then some (x &&& 0xffffffff)
    else if extend_type = 3 then some x
    else if extend_type = 4 then some (sign_extend x 7)
    else if extend_type = 5 then some (sign_extend x 15)
    else if extend_type = 6 then some (sign_extend x 31)
    else if extend_type = 7 then some x
    else none
  ext.map (fun v => shl64 v shift)

/-- Guest memory: a byte at each guest address (identity translation;
release-build accessors are unchecked). -/
def Mem : Type := Nat → Nat

/-- `getui8`: the byte stored at guest address `a`. -/
def getui8 (mem : Mem) (a : Nat) : Nat := mem a % 256

/-- `getui32`: `*(uint32_t*)getmem(o)` — a little-endian 32-bit load. -/
def getui32 (mem : Mem) (a : Nat) : Nat :=
  getui8 mem a ||| (getui8 mem (a + 1) <<< 8) ||| (getui8 mem (a + 2) <<< 16) |||
    (getui8 mem (a + 3) <<< 24)

/-- Outcome of executing one decoded instruction inside the dispatch switch
of `Arm64::run`:
* `fellThrough` — the case ended in `break`; the loop tail then runs
  `pc += 4; cycles_so_far++`.
* `branched` — the case ended in `continue` (taken branches, which already
  wrote `pc`); the loop tail is skipped.
* `fatal` — `unhandled()` was reached: `arm64_hard_termination` is invoked
  and does not return.
* `hostDivByZero` — the source evaluates an integer division whose divisor
  is zero (C undefined behaviour). -/
inductive StepResult
  | fellThrough (s : Arm64)
  | branched (s : Arm64)
  | fatal
  | hostDivByZero

/-- `case 0x14..0x17` of `Arm64::run`: B (unconditional branch). -/
def exec_b (s : Arm64) (op : Nat) : StepResult :=
  let imm26 := (opbits op 0 26) <<< 2
  let imm26 := sign_extend imm26 27
  .branched { s with pc := (s.pc + imm26) % M64 }

/-- `case 0x54` of `Arm64::run`: B.cond. -/
def exec_b_cond (s : Arm64) (op : Nat) : StepResult :=
  let cond := opbits op 0 4
  if s.check_conditional cond then
    let imm19 := (opbits op 5 19) <<< 2
    let imm19 := sign_extend imm19 20
    .branched { s with pc := (s.pc + imm19) % M64 }
  else
    .fellThrough s

/-- `case 0x94..0x97` of `Arm64::run`: BL (`regs[30] = pc + 4; pc += offset`). -/
def exec_bl (s : Arm64) (op : Nat) : StepResult :=
  let offset := sign_extend ((opbits op 0 26) <<< 2) 27
  let s1 := s.setReg 30 ((s.pc + 4) % M64)
  .branched { s1 with pc := (s1.pc + offset) % M64 }

/-- `case 0xd6` of `Arm64::run`: BR / BLR / RET. -/
def exec_br_blr_ret (s : Arm64) (op : Nat) : StepResult :=
  let n := opbits op 5 5
  let theop := opbits op 21 2
  let bit23 := opbits op 23 1
  let op2 := opbits op 12 9
  let A := opbits op 11 1
  let M := opbits op 10 1
  if bit23 ≠ 0 then .fatal
  else if op2 ≠ 0x1f0 then .fatal
  else if A ≠ 0 ∨ M ≠ 0 then .fatal
  else if theop = 0 then .branched { s with pc := s.regs n }
  else if theop = 1 then
    let location := (s.pc + 4) % M64
    let s1 : Arm64 := { s with pc := s.regs n }
    .branched (s1.setReg 30 location)
  else if theop = 2 then .branched { s with pc := s.regs n }
  else .fatal

/-- `case 0x34/0x35/0xb4/0xb5` of `Arm64::run`: CBZ / CBNZ. -/
def exec_cbz_cbnz (s : Arm64) (op hi8 : Nat) : StepResult :=
  let t := opbits op 0 5
  let val := s.val_reg_or_zr t
  let zero_check : Bool := decide (hi8 &&& 1 = 0)
  let val := if hi8 &&& 0x80 = 0 then val &&& 0xffffffff else val
  if zero_check = decide (0 = val) then
    let imm19 := (op >>> 3) &&& 0x1ffffc
    let imm19 := sign_extend imm19 20
    .branched { s with pc := (s.pc + imm19) % M64 }
  else
    .fellThrough s

/-- `case 0x36/0x37/0xb6/0xb7` of `Arm64::run`: TBZ / TBNZ (the top encoding
bit contributes bit 5 of the bit index). -/
def exec_tbz_tbnz (s : Arm64) (op hi8 : Nat) : StepResult :=
  let b40 := opbits op 19 5
  let b40 := if hi8 &&& 0x80 ≠ 0 then b40 ||| 0x20 else b40
  let t := opbits op 0 5
  let mask := 1 <<< b40
  let isset : Bool := decide (s.regs t &&& mask ≠ 0)
  let zerocheck : Bool := decide (hi8 &&& 1 = 0)
  if isset ≠ zerocheck then
    let imm14 := sign_extend ((opbits op 5 14) <<< 2) 15
    .branched { s with pc := (s.pc + imm14) % M64 }
  else
    .fellThrough s

/-- `case 0x31/0x71/0xb1/0xf1` of `Arm64::run`: ADDS / SUBS immediate
(CMN / CMP when `d == 31`). -/
def exec_addsub_imm_flags (s : Arm64) (op hi8 : Nat) : StepResult :=
  let xregs := hi8 &&& 0x80 ≠ 0
  let imm12 := opbits op 10 12
  let n := opbits op 5 5
  let d := opbits op 0 5
  let is_sub := hi8 &&& 0x40 ≠ 0
  let shift12 := opbits op 22 1
  let imm12 := if shift12 ≠ 0 then imm12 <<< 12 else imm12
  let sr :=
    if xregs then
      if is_sub then s.sub64 (s.regs n) imm12 true
      else s.add_with_carry64 (s.regs n) imm12 false true
    else
      if is_sub then s.sub32 (s.regs n &&& 0xffffffff) (imm12 &&& 0xffffffff) true
      else s.add_with_carry32 (s.regs n &&& 0xffffffff) (imm12 &&& 0xffffffff) false true
  if d ≠ 31 then .fellThrough (sr.1.setReg d sr.2) else .fellThrough sr.1

/-- `case 0x0b/0x2b/0x4b/0x6b/0x8b/0xab/0xcb/0xeb` of `Arm64::run`:
ADD / ADDS / SUB / SUBS with shifted or extended register operand.
The write-back is `if ((!setflags) || (31 != d)) regs[d] = result;`. -/
def exec_addsub_reg (s : Arm64) (op hi8 : Nat) : StepResult :=
  let extended := opbits op 21 1
  let issub := hi8 &&& 0x40 ≠ 0
  let setflags := hi8 &&& 0x20 ≠ 0
  let xregs := hi8 &&& 0x80 ≠ 0
  let m := opbits op 16 5
  let n := opbits op 5 5
  let d := opbits op 0 5
  let nvalue := s.regs n
  let offsetOpt :=
    if extended = 1 then s.extend_reg m (opbits op 13 3) (opbits op 10 3)
    else if xregs then s.shift_reg64 m (opbits op 22 2) (opbits op 10 6)
    else s.shift_reg32 m (opbits op 22 2) (opbits op 10 6)
  match offsetOpt with
  | none => .fatal
  | some offset =>
    let nvalue := if extended ≠ 1 ∧ n = 31 then 0 else nvalue
    let sr :=
      if issub then
        if xregs then s.sub64 nvalue offset setflags
        else s.sub32 (nvalue &&& 0xffffffff) (offset &&& 0xffffffff) setflags
      else
        if xregs then s.add_with_carry64 nvalue offset false setflags
        else s.add_with_carry32 (nvalue &&& 0xffffffff) (offset &&& 0xffffffff) false setflags
    if (¬setflags) ∨ d ≠ 31 then .fellThrough (sr.1.setReg d sr.2)
    else .fellThrough sr.1

/-- The common tail of `case 0x1a/0x9a` of `Arm64::run`:
`if (!xregs) regs[d] &= 0xffffffff;` followed by `break`. -/
def dp_2src_tail (hi8 d : Nat) (s2 : Arm64) : StepResult :=
  if ¬(hi8 &&& 0x80 ≠ 0) then .fellThrough (s2.setReg d (s2.regs d &&& 0xffffffff))
  else .fellThrough s2

/-- `case 0x1a/0x9a` of `Arm64::run`: CSEL / CSINC / ASRV / UDIV / SDIV /
LSRV / LSLV / ADC / RORV.  Mirrors the source's `else if` chain, the early
`if (31 == d) break;`, and the common tail
`if (!xregs) regs[d] &= 0xffffffff;`.
Note the SDIV arms: the outer guards test `regs[m]` (X form) resp.
`0xffffffff & mval` (W form) and skip the assignment entirely when they are
zero, and the W-form UDIV divides `(uint32_t)nval / (uint32_t)mval` whenever
the full 64-bit `mval` is nonzero — a host division by zero when
`mval % 2^32 == 0`. -/
def exec_dp_2src (s : Arm64) (op hi8 : Nat) : StepResult :=
  let xregs := hi8 &&& 0x80 ≠ 0
  let bits11_10 := opbits op 10 2
  let d := opbits op 0 5
  let n := opbits op 5 5
  let m := opbits op 16 5
  let bits15_12 := opbits op 12 4
  let bits23_21 := opbits op 21 3
  if d = 31 then .fellThrough s
  else
    let mval := s.val_reg_or_zr m
    let nval := s.val_reg_or_zr n
    let tail : Arm64 → StepResult := dp_2src_tail hi8 d
    if bits11_10 = 0 ∧ bits23_21 = 4 then -- CSEL
      let cond := opbits op 12 4
      tail (if s.check_conditional cond then s.setReg d nval else s.setReg d mval)
    else if bits11_10 = 1 ∧ bits23_21 = 4 then -- CSINC
      let cond := opbits op 12 4
      tail (if s.check_conditional cond then s.setReg d nval
            else s.setReg d ((1 + mval) % M64))
    else if bits11_10 = 2 ∧ bits23_21 = 6 ∧ bits15_12 = 2 then -- ASRV
      if xregs then
        tail (s.setReg d (asr64 nval (mval % 64)))
      else
        tail (s.setReg d (asr32 nval ((mval &&& 0xffffffff) % 32)))
    else if bits11_10 = 2 ∧ bits23_21 = 6 ∧ bits15_12 = 0 then -- UDIV
      if xregs then
        tail (s.setReg d (if mval = 0 then 0 else nval / mval))
      else if mval = 0 then
        tail (s.setReg d 0)
      else if mval &&& 0xffffffff = 0 then
        .hostDivByZero -- (uint32_t) nval / (uint32_t) mval with a zero divisor: host UB
      else
        tail (s.setReg d (0xffffffff &&& ((nval &&& 0xffffffff) / (mval &&& 0xffffffff))))
    else if bits11_10 = 3 ∧ bits23_21 = 6 ∧ bits15_12 = 0 then -- SDIV
      if xregs then
        if s.regs m ≠ 0 then
          tail (s.setReg d (if mval = 0 then 0
            else ((Int.tdiv (toInt64 nval) (toInt64 mval)) % (M64 : Int)).toNat))
        else tail s -- guard failed: regs[d] is not assigned
      else
        if mval &&& 0xffffffff ≠ 0 then
          tail (s.setReg d (if mval = 0 then 0
            else ((Int.tdiv (toInt32 (nval &&& 0xffffffff)) (toInt32 (mval &&& 0xffffffff)))
                    % (M64 : Int)).toNat))
        else tail s -- guard failed: regs[d] is not assigned
    else if bits11_10 = 1 ∧ bits23_21 = 6 ∧ bits15_12 = 2 then -- LSRV
      if xregs then
        tail (s.setReg d (nval >>> (mval % 64)))
      else
        tail (s.setReg d ((nval &&& 0xffffffff) >>> ((mval &&& 0xffffffff) % 32)))
    else if bits11_10 = 0 ∧ bits23_21 = 6 ∧ bits15_12 = 2 then -- LSLV
      if xregs then
        tail (s.setReg d (shl64 nval (mval % 64)))
      else
        tail (s.setReg d (0xffffffff &&& shl64 nval ((mval &&& 0xffffffff) % 32)))
    else if bits11_10 = 0 ∧ bits23_21 = 0 ∧ bits15_12 = 0 then -- ADC
      if xregs then
        let sr := s.add_with_carry64 nval mval s.fC false
        tail (sr.1.setReg d sr.2)
      else
        let sr := s.add_with_carry32 (nval &&& 0xffffffff) (mval &&& 0xffffffff) s.fC false
        tail (sr.1.setReg d sr.2)
    else if bits11_10 = 3 ∧ bits23_21 = 6 ∧ bits15_12 = 2 then -- RORV
      if xregs then
        match s.shift_reg64 n 3 mval with
        | some v => tail (s.setReg d v)
        | none => .fatal
      else
        match s.shift_reg32 n 3 mval with
        | some v => tail (s.setReg d v)
        | none => .fatal
    else .fatal -- unhandled()

/-- The dispatch switch of `Arm64::run` over the top byte of the opcode,
restricted to the instruction families the claims are about.  Families the
source implements but that are outside this subset are mapped to `fatal`
(the source's `default: unhandled();` arm is `fatal` as well). -/
def execute (s : Arm64) (op : Nat) : StepResult :=
  let hi8 := op >>> 24
  if hi8 = 0x14 ∨ hi8 = 0x15 ∨ hi8 = 0x16 ∨ hi8 = 0x17 then exec_b s op
  else if hi8 = 0x54 then exec_b_cond s op
  else if hi8 = 0x94 ∨ hi8 = 0x95 ∨ hi8 = 0x96 ∨ hi8 = 0x97 then exec_bl s op
  else if hi8 = 0xd6 then exec_br_blr_ret s op
  else if hi8 = 0x34 ∨ hi8 = 0x35 ∨ hi8 = 0xb4 ∨ hi8 = 0xb5 then exec_cbz_cbnz s op hi8
  else if hi8 = 0x36 ∨ hi8 = 0x37 ∨ hi8 = 0xb6 ∨ hi8 = 0xb7 then exec_tbz_tbnz s op hi8
  else if hi8 = 0x1a ∨ hi8 = 0x9a then exec_dp_2src s op hi8
  else if hi8 = 0x31 ∨ hi8 = 0x71 ∨ hi8 = 0xb1 ∨ hi8 = 0xf1 then exec_addsub_imm_flags s op hi8
  else if hi8 = 0x0b ∨ hi8 = 0x2b ∨ hi8 = 0x4b ∨ hi8 = 0x6b ∨
          hi8 = 0x8b ∨ hi8 = 0xab ∨ hi8 = 0xcb ∨ hi8 = 0xeb then exec_addsub_reg s op hi8
  else .fatal

/-- Outcome of one iteration of the `do { ... } while` dispatch loop body:
* `exitEnd` — the end-emulation bit was observed set: it is cleared and the
  loop `break`s (the fetched opcode is not executed).
* `next` — an instruction was executed; for `break`-ending cases the loop
  tail `pc += 4; cycles_so_far++` has been applied, for `continue`-ending
  cases it has not.
* `stuck` — `unhandled()` (hard termination) or host undefined behaviour. -/
inductive BodyResult
  | exitEnd (s : Arm64)
  | next (s : Arm64)
  | stuck

/-- One iteration of the dispatch-loop body of `Arm64::run` (release build:
the `#ifndef NDEBUG` checks are compiled out; tracing has no state effect).
The source fetches `op = getui32(pc)` first and then samples `g_State`. -/
def run_body (mem : Mem) (s : Arm64) : BodyResult :=
  let op := getui32 mem s.pc
  if s.gState &&& stateEndEmulation ≠ 0 then
    .exitEnd { s with gState := s.gState &&& 0xfffffffd }
  else
    match execute s op with
    | .fellThrough s1 =>
        .next { s1 with pc := (s1.pc + 4) % M64,
                        cycles_so_far := (s1.cycles_so_far + 1) % M64 }
    | .branched s1 => .next s1
    | .fatal => .stuck
    | .hostDivByZero => .stuck

/-- Result of the whole loop: `ok` is a normal return from `run`, `stuck` a
non-returning hard termination / UB. -/
inductive RunOutcome
  | ok (s : Arm64)
  | stuck

/-- The `do { ... } while (cycles_so_far < target_cycles)` loop of
`Arm64::run`.  The C loop need not terminate (taken branches do not advance
`cycles_so_far`), so the embedding carries explicit fuel; `none` means the
fuel ran out before the loop exited. -/
def runLoop (mem : Mem) : Nat → Arm64 → Nat → Option RunOutcome
  | 0, _, _ => none
  | fuel + 1, s, target =>
    match run_body mem s with
    | .exitEnd s1 => some (.ok s1)
    | .stuck => some .stuck
    | .next s1 =>
      if s1.cycles_so_far < target then runLoop mem fuel s1 target
      else some (.ok s1)

/-- `Arm64::run`: returns `cycles_so_far - start_cycles` (uint64 difference)
and the final machine state, when the loop exits within `fuel` iterations. -/
def run (mem : Mem) (fuel : Nat) (s : Arm64) (max_cycles : Nat) :
    Option (Nat × Arm64) :=
  let start_cycles := s.cycles_so_far
  let target_cycles := (s.cycles_so_far + max_cycles) % M64
  match runLoop mem fuel s target_cycles with
  | some (.ok s1) => some (((s1.cycles_so_far + M64 - start_cycles) % M64), s1)
  | _ => none

/-- C binary `-` on `uint64_t` values (wraps modulo `2^64`). -/
def c_sub64 (a b : Nat) : Nat := (a % M64 + (M64 - b % M64)) % M64

/-- The `while (x) { count++; x >>= 1; }` loop of `count_leading_zeroes`,
unrolled structurally (a `uint64_t` needs at most 64 iterations): the number
of iterations is the bit length of `x`. -/
def bit_length_go : Nat → Nat → Nat
  | 0, _ => 0
  | f + 1, x => bif Nat.beq x 0 then 0 else 1 + bit_length_go f (Nat.shiftRight x 1)

/-- Bit length of a `uint64_t` value: the iteration count of the C loop. -/
def clz_loop (x : Nat) : Nat := bit_length_go 64 x

/-- `count_leading_zeroes` from arm64.hxx. -/
def count_leading_zeroes (x bit_width : Nat) : Nat := c_sub64 bit_width (clz_loop x)

/-- `ror` (static inline) from arm64.hxx: rotate right by one within `size`
bits: `((elt & 1) << (size - 1)) | (elt >> 1)`. -/
def ror (elt size : Nat) : Nat :=
  Nat.lor (shl64 (Nat.land elt 1) (size - 1)) (Nat.shiftRight elt 1)

/-- The `for (i = 0; i < R; i++) pattern = ror(pattern, size);` loop of
`decode_logical_immediate`. -/
def ror_loop : Nat → Nat → Nat → Nat
  | 0, pattern, _ => pattern
  | r + 1, pattern, size => ror_loop r (ror pattern size) size

/-- The `while (size != bit_width) { pattern |= pattern << size; size *= 2; }`
loop of `decode_logical_immediate`, with explicit fuel (7 suffices for every
valid input; the C loop does not terminate when `size` overshoots
`bit_width`, which only invalid encodings can cause). -/
def replicate_loop : Nat → Nat → Nat → Nat → Nat
  | 0, pattern, _, _ => pattern
  | f + 1, pattern, size, bit_width =>
    bif Nat.beq size bit_width then pattern
    else replicate_loop f (Nat.lor pattern (shl64 pattern size)) (size * 2) bit_width

/-- `decode_logical_immediate` from arm64.hxx. -/
def decode_logical_immediate (val bit_width : Nat) : Nat :=
  let N := get_bits val 12 1
  let immr := get_bits val 6 6
  let imms := get_bits val 0 6
  let lzero_count := count_leading_zeroes ((N <<< 6) ||| (c_not64 imms &&& 0x3f)) 32
  let len := c_sub64 31 lzero_count
  let size := shl64 1 len
  let R := immr &&& (size - 1)
  let S := imms &&& (size - 1)
  let pattern := shl64 1 (S + 1) - 1
  let pattern := ror_loop R pattern size
  replicate_loop 7 pattern size bit_width

/-- Replication of an `esize`-bit element across `bw` bits (both powers of
two, `esize ∣ bw`): `elem * Σ_i 2^(esize*i)`, and the geometric sum is
`(2^bw - 1) / (2^esize - 1)`. -/
def replicate_elem (elem esize bw : Nat) : Nat :=
  (elem % 2 ^ esize) * ((2 ^ bw - 1) / (2 ^ esize - 1))

/-- Rotate an `esize`-bit value right by `r`. -/
def ror_elem (x r esize : Nat) : Nat :=
  ((x >>> r) ||| (x <<< (esize - r))) % 2 ^ esize

/-- Modelled from the spec (§4.3): the reference logical-immediate decode —
"locating the size via the position of the highest bit of `N:~imms`,
producing a primitive pattern of S+1 ones, rotating right by R modulo the
element size, then replicating that element across the destination width". -/
def reference_logical_imm (field bw : Nat) : Nat :=
  let N := field / 2 ^ 12 % 2
  let immr := field / 2 ^ 6 % 64
  let imms := field % 64
  let len := clz_loop (N * 64 + (63 - imms)) - 1
  let esize := 2 ^ len
  let S := imms % esize
  let R := immr % esize
  let welem := 2 ^ (S + 1) - 1
  replicate_elem (ror_elem welem R esize) esize bw

/-- Modelled from the spec: validity of a 13-bit `N:immr:imms` field for
destination width `bw` per the AArch64 reference (`DecodeBitMasks`): the
element size must be at least 2 (`N:~imms ≥ 2`), a 32-bit destination
requires `N = 0`, and the all-ones element (`imms` congruent to all ones in
the element) is reserved. -/
def valid_logical_imm (field bw : Nat) : Bool :=
  let N := field / 2 ^ 12 % 2
  let imms := field % 64
  let nimm := N * 64 + (63 - imms)
  decide (2 ≤ nimm) && (decide (bw = 64) || decide (N = 0)) &&
    decide (imms % 2 ^ (clz_loop nimm - 1) ≠ 2 ^ (clz_loop nimm - 1) - 1)

/-- Number of set bits of a value below `2^64` (SWAR). -/
def popcount64 (x : Nat) : Nat :=
  let x := (x &&& 0x5555555555555555) + ((x >>> 1) &&& 0x5555555555555555)
  let x := (x &&& 0x3333333333333333) + ((x >>> 2) &&& 0x3333333333333333)
  let x := (x &&& 0x0f0f0f0f0f0f0f0f) + ((x >>> 4) &&& 0x0f0f0f0f0f0f0f0f)
  ((x * 0x0101010101010101) % M64) >>> 56

/-- Bit length of a value below `2^64` (binary search; `blen64 0 = 0`). -/
def blen64 (x0 : Nat) : Nat :=
  let p := if 2 ^ 32 ≤ x0 then (x0 >>> 32, 32) else (x0, 0)
  let p := if 2 ^ 16 ≤ p.1 then (p.1 >>> 16, p.2 + 16) else p
  let p := if 2 ^ 8 ≤ p.1 then (p.1 >>> 8, p.2 + 8) else p
  let p := if 2 ^ 4 ≤ p.1 then (p.1 >>> 4, p.2 + 4) else p
  let p := if 2 ^ 2 ≤ p.1 then (p.1 >>> 2, p.2 + 2) else p
  let p := if 2 ≤ p.1 then (p.1 >>> 1, p.2 + 1) else p
  if p.1 = 1 then p.2 + 1 else p.2

/-- Modelled from the spec (§8, invariant 5): re-encoding of a decoded mask
into the 13-bit `N:immr:imms` field — find the (unique, smallest) element
size whose low element replicates to the mask, recover `S+1` as the element
popcount, recover `R` from the start position of the cyclic run of ones,
verify the element is that rotated run, and assemble the field with the
architectural `imms` prefix for the element size. -/
def encode_logical_imm (mask bw : Nat) : Option Nat :=
  let esize :=
    if replicate_elem mask 2 bw = mask then 2
    else if replicate_elem mask 4 bw = mask then 4
    else if replicate_elem mask 8 bw = mask then 8
    else if replicate_elem mask 16 bw = mask then 16
    else if replicate_elem mask 32 bw = mask then 32
    else 64
  if bw < esize ∨ replicate_elem mask esize bw ≠ mask then none
  else
    let elem := mask % 2 ^ esize
    let w := popcount64 elem
    if w = 0 ∨ w = esize then none
    else
      -- start position of the cyclic run of ones in `elem`
      let wrapped := elem % 2 = 1 ∧ 2 ^ (esize - 1) ≤ elem
      let j0 :=
        if wrapped then blen64 ((2 ^ esize - 1) ^^^ elem)
        else blen64 (elem &&& (2 ^ 64 - elem)) - 1
      let R := (esize - j0) % esize
      if ror_elem (2 ^ w - 1) R esize ≠ elem then none
      else
        let N : Nat := if esize = 64 then 1 else 0
        let imms := ((0x3f ^^^ (2 * esize - 1)) &&& 0x3f) ||| (w - 1)
        some ((N <<< 12) ||| (R <<< 6) ||| imms)

/-- A 13-bit logical-immediate field whose rotation count `immr` is already
reduced modulo the element size (the canonical choice among the encodings
that decode to the same mask; `immr` is only consumed modulo the element
size, so larger rotation fields are redundant aliases). -/
def canonical_rotation (field : Nat) : Bool :=
  let N := field / 2 ^ 12 % 2
  let imms := field % 64
  let immr := field / 64 % 64
  decide (immr < 2 ^ (clz_loop (N * 64 + (63 - imms)) - 1))

/-- Bounded universal quantification `∀ v ∈ [lo, lo+n), f v`, as a
balanced-tree recursion (logarithmic depth, so that kernel evaluation does
not overflow the interpreter stack).  `fuel ≥ log2 n` is required. -/
def all_below (f : Nat → Bool) : Nat → Nat → Nat → Bool
  | 0, lo, n => if n = 0 then true else if n = 1 then f lo else false
  | fuel + 1, lo, n =>
    if n = 0 then true
    else if n = 1 then f lo
    else all_below f fuel lo (n / 2) && all_below f fuel (lo + n / 2) (n - n / 2)

/-- The checks applied to the decoded mask `dec` of field `v`: `dec` matches
the reference pattern, and on fields with canonical rotation `dec`
re-encodes to the original field. -/
def logical_imm_decoded_ok (bw v dec : Nat) : Bool :=
  decide (dec = reference_logical_imm v bw) &&
    (!(canonical_rotation v) || decide (encode_logical_imm dec bw = some v))

/-- The per-field property of claim C5 (amended): for a valid field, the
source decode equals the reference pattern, and on fields with canonical
rotation the decoded mask re-encodes to the original field. -/
def logical_imm_field_ok (bw v : Nat) : Bool :=
  !(valid_logical_imm v bw) ||
    logical_imm_decoded_ok bw v (decode_logical_immediate v bw)

/-- All 13-bit fields pass `logical_imm_field_ok` for destination width `bw`. -/
def checkC5_width (bw : Nat) : Bool := all_below (logical_imm_field_ok bw) 14 0 8192

/-- `replicate_bytes` from arm64.hxx. -/
def replicate_bytes (val byte_len : Nat) : Nat :=
  let mask := one_bits (byte_len * 8)
  let pattern := val &&& mask
  (List.range (8 / byte_len)).foldl
    (fun result x => result ||| (pattern <<< (x * byte_len * 8))) 0

/-- `adv_simd_expand_imm` from arm64.hxx (`none` models `unhandled()`). -/
def adv_simd_expand_imm (operand cmode imm8 : Nat) : Option Nat :=
  let cm := cmode >>> 1
  if cm = 0 then some (replicate_bytes imm8 4)
  else if cm = 1 then some (replicate_bytes (imm8 <<< 8) 4)
  else if cm = 2 then some (replicate_bytes (imm8 <<< 16) 4)
  else if cm = 3 then some (replicate_bytes (imm8 <<< 24) 4)
  else if cm = 4 then some (replicate_bytes imm8 2)
  else if cm = 5 then some (replicate_bytes (imm8 <<< 8) 2)
  else if cm = 6 then
    if cmode &&& 1 = 0 then some (replicate_bytes ((imm8 <<< 16) ||| 0xffff) 4)
    else some (replicate_bytes ((imm8 <<< 8) ||| 0xff) 4)
  else if cm = 7 then
    if cmode &&& 1 = 0 then
      if operand = 0 then some (replicate_bytes imm8 1)
      else if operand = 1 then
        let imm8a : Nat := if imm8 &&& 0x80 ≠ 0 then 0xff else 0
        let imm8b : Nat := if imm8 &&& 0x40 ≠ 0 then 0xff else 0
        let imm8c : Nat := if imm8 &&& 0x20 ≠ 0 then 0xff else 0
        let imm8d : Nat := if imm8 &&& 0x10 ≠ 0 then 0xff else 0
        let imm8e : Nat := if imm8 &&& 0x08 ≠ 0 then 0xff else 0
        let imm8f : Nat := if imm8 &&& 0x04 ≠ 0 then 0xff else 0
        let imm8g : Nat := if imm8 &&& 0x02 ≠ 0 then 0xff else 0
        let imm8h : Nat := if imm8 &&& 0x01 ≠ 0 then 0xff else 0
        some ((imm8a <<< 56) ||| (imm8b <<< 48) ||| (imm8c <<< 40) ||| (imm8d <<< 32) |||
              (imm8e <<< 24) ||| (imm8f <<< 16) ||| (imm8g <<< 8) ||| imm8h)
      else none
    else
      if operand = 0 then
        let a := get_bit imm8 7
        let b : Nat := if get_bit imm8 6 = 0 then 1 else 0
        let c := replicate_bits (get_bit imm8 6) 5
        let d := get_bits imm8 0 6
        let imm32 := (((a <<< 12) ||| (b <<< 11) ||| (c <<< 6) ||| d) <<< 19) % M32
        some (replicate_bytes imm32 4)
      else
        some ((get_bits imm8 7 1 <<< 63) |||
              ((if get_bits imm8 6 1 ≠ 0 then (0 : Nat) else 1) <<< 62) |||
              (replicate_bits (get_bits imm8 6 1) 8 <<< 54) |||
              (get_bits imm8 0 6 <<< 48))
  else none

/-- Modelled from the spec (§4.5 "Rounding and NaN": host FP follows
IEEE-754): an IEEE binary64 value as far as comparison by subtraction is
concerned — NaN, an infinity of either sign, or a finite value carrying its
exact rational magnitude (signed zeros both map to `finite 0`, which is all
`set_flags_from_double` can observe). -/
inductive FPValue
  | nan
  | finite (q : ℚ)
  | posInf
  | negInf

/-- Modelled from the spec: IEEE-754 binary64 subtraction `a - b`, at the
granularity `FPValue` can express.  NaN propagates; same-signed infinities
subtract to NaN; an infinite operand otherwise dominates; finite operands
subtract exactly.  (IEEE rounding of a finite difference never changes its
sign, and with gradual underflow `a - b` rounds to zero only when `a = b`;
overflow of the difference to an infinity keeps its sign: so the
classification by `set_flags_from_double` is unaffected by dropping
rounding.) -/
def fp_sub : FPValue → FPValue → FPValue
  | .nan, _ => .nan
  | _, .nan => .nan
  | .posInf, .posInf => .nan
  | .negInf, .negInf => .nan
  | .posInf, _ => .posInf
  | .negInf, _ => .negInf
  | .finite _, .posInf => .negInf
  | .finite _, .negInf => .posInf
  | .finite a, .finite b => .finite (a - b)

/-- `isnan(result)`. -/
def fp_isnan : FPValue → Bool
  | .nan => true
  | _ => false

/-- `0.0 == result`. -/
def fp_iszero : FPValue → Bool
  | .finite q => decide (q = 0)
  | _ => false

/-- `result < 0.0`. -/
def fp_isneg : FPValue → Bool
  | .finite q => decide (q < 0)
  | .negInf => true
  | _ => false

/-- `set_flags_from_double` from arm64.hxx: classify the double `result`
into the NZCV flags. -/
def Arm64.set_flags_from_double (s : Arm64) (result : FPValue) : Arm64 :=
  if fp_isnan result then { s with fN := false, fZ := false, fC := true, fV := true }
  else if fp_iszero result then { s with fN := false, fZ := true, fC := true, fV := false }
  else if fp_isneg result then { s with fN := true, fZ := false, fC := false, fV := false }
  else { s with fN := false, fZ := false, fC := true, fV := false }

/-- The double-precision register-register arm of the FCMP case of
`Arm64::run` (`case 0x1e`, `ftype == 1`, `opc ∈ {0, 2}`):
`result = vregs[n].d - vregs[m].d; set_flags_from_double(result);`. -/
def fcmp_double (s : Arm64) (a b : FPValue) : Arm64 :=
  s.set_flags_from_double (fp_sub a b)

/-- Modelled from the spec: the IEEE-754 `==` predicate on doubles (NaN
compares unequal to everything, `+inf == +inf`, `-inf == -inf`). -/
def fp_eq : FPValue → FPValue → Bool
  | .finite a, .finite b => decide (a = b)
  | .posInf, .posInf => true
  | .negInf, .negInf => true
  | _, _ => false

/-- Modelled from the spec: the IEEE-754 `<` predicate on doubles. -/
def fp_lt : FPValue → FPValue → Bool
  | .finite a, .finite b => decide (a < b)
  | .finite _, .posInf => true
  | .negInf, .finite _ => true
  | .negInf, .posInf => true
  | _, _ => false

/-- A 128-bit vector register as its 16 bytes (the `vec16_t` view of
`union floating`); byte 0 is the least significant byte of the `.d` /
`.f` scalar lanes. -/
def VReg : Type := Nat → Nat

/-- The 64-bit pattern of the `.d` lane: bytes 0..7, little-endian. -/
def vreg_d_bits (v : VReg) : Nat :=
  (v 0 % 256) ||| ((v 1 % 256) <<< 8) ||| ((v 2 % 256) <<< 16) |||
    ((v 3 % 256) <<< 24) ||| ((v 4 % 256) <<< 32) ||| ((v 5 % 256) <<< 40) |||
    ((v 6 % 256) <<< 48) ||| ((v 7 % 256) <<< 56)

/-- The scalar double FADD arm of `case 0x1e` of `Arm64::run`
(`ftype == 1`): `vregs[d].d = vregs[n].d + vregs[m].d;` — the union write
stores the 8-byte result over bytes 0..7 of `v[d]` and leaves bytes 8..15
as they were (there is no `memset` in this arm, unlike FMUL/FABS/FMADD).
The host IEEE addition on the 64-bit patterns is abstracted as `f64add`. -/
def fadd_scalar_double (f64add : Nat → Nat → Nat) (vn vm vd : VReg) : VReg :=
  fun i =>
    if i < 8 then (f64add (vreg_d_bits vn) (vreg_d_bits vm) >>> (8 * i)) % 256
    else vd i

/-- The scalar double FABS arm of `case 0x1e` of `Arm64::run`
(`ftype == 1`): `vregs[d].d = fabs(vregs[n].d); memset(vreg_ptr(d, 8), 0, 8);`
— bytes 8..15 of `v[d]` are explicitly zeroed. -/
def fabs_scalar_double (f64abs : Nat → Nat) (vn vd : VReg) : VReg :=
  fun i =>
    if i < 8 then (f64abs (vreg_d_bits vn) >>> (8 * i)) % 256
    else 0

/-- Modelled from the spec (§8, invariant 1): the architectural target of
the branch instruction `op`, for the embedded branch families. -/
def branch_target (op : Nat) (s : Arm64) : Option Nat :=
  let hi8 := op >>> 24
  if hi8 = 0x14 ∨ hi8 = 0x15 ∨ hi8 = 0x16 ∨ hi8 = 0x17 ∨
     hi8 = 0x94 ∨ hi8 = 0x95 ∨ hi8 = 0x96 ∨ hi8 = 0x97 then
    some ((s.pc + sign_extend ((opbits op 0 26) <<< 2) 27) % M64)
  else if hi8 = 0x54 then
    some ((s.pc + sign_extend ((opbits op 5 19) <<< 2) 20) % M64)
  else if hi8 = 0xd6 then some (s.regs (opbits op 5 5))
  else if hi8 = 0x34 ∨ hi8 = 0x35 ∨ hi8 = 0xb4 ∨ hi8 = 0xb5 then
    some ((s.pc + sign_extend ((op >>> 3) &&& 0x1ffffc) 20) % M64)
  else if hi8 = 0x36 ∨ hi8 = 0x37 ∨ hi8 = 0xb6 ∨ hi8 = 0xb7 then
    some ((s.pc + sign_extend ((opbits op 5 14) <<< 2) 15) % M64)
  else none

/-- Modelled from the spec (§4.1): the number of instructions fetched and
executed ("retired") during a `run` call — counting every dispatched
instruction, taken branches included — following the same loop structure as
`runLoop`. -/
def instructions_executed (mem : Mem) : Nat → Arm64 → Nat → Option Nat
  | 0, _, _ => none
  | fuel + 1, s, target =>
    match run_body mem s with
    | .exitEnd _ => some 0
    | .stuck => none
    | .next s1 =>
      if s1.cycles_so_far < target then
        (instructions_executed mem fuel s1 target).map (fun k => k + 1)
      else some 1

/-- The machine state carried by a `next` outcome. -/
def BodyResult.nextState : BodyResult → Option Arm64
  | .next s => some s
  | _ => none

/-- The `pc` after a `next` outcome. -/
def BodyResult.pcAfter : BodyResult → Option Nat
  | .next s => some s.pc
  | _ => none

/-- The cycle counter after a `next` outcome. -/
def BodyResult.cyclesAfter : BodyResult → Option Nat
  | .next s => some s.cycles_so_far
  | _ => none

/-- The register file after a `fellThrough`/`branched` outcome. -/
def StepResult.regsOf : StepResult → Option (Nat → Nat)
  | .fellThrough s => some s.regs
  | .branched s => some s.regs
  | _ => none

/-- The NZCV flags after a `fellThrough`/`branched` outcome. -/
def StepResult.flagsOf : StepResult → Option (Bool × Bool × Bool × Bool)
  | .fellThrough s => some (s.fN, s.fZ, s.fC, s.fV)
  | .branched s => some (s.fN, s.fZ, s.fC, s.fV)
  | _ => none

/-- A 32-bit element replicated across 64 bits. -/
def dup32 (w : Nat) : Nat := w ||| (w <<< 32)

/-- A 16-bit element replicated across 64 bits. -/
def dup16 (w : Nat) : Nat := dup32 (w ||| (w <<< 16))

/-- Modelled from the spec (§4.5): the eight-row Advanced SIMD
expand-immediate table indexed by `cmode[3:1]` — rows 000..011 replicate
`imm8` in each 32-bit element shifted left by 0/8/16/24, rows 100..101
replicate `imm8` in each 16-bit element shifted by 0/8, row 110 is a 32-bit
element with `imm8` in byte 2 or byte 1 and `0xff` fill in the lower bytes
(selected by `cmode[0]`; the spec's table leaves the polarity open, fixed
here as byte 2 for `cmode[0]=0`), and row 111 holds the byte-replicate,
bit-to-byte and IEEE FMOV-immediate forms. -/
def expand_imm_table (op cmode imm8 : Nat) : Option Nat :=
  let row := cmode >>> 1
  if row ≤ 3 then some (dup32 (imm8 <<< (8 * row)))
  else if row = 4 then some (dup16 imm8)
  else if row = 5 then some (dup16 (imm8 <<< 8))
  else if row = 6 then
    if cmode &&& 1 = 0 then some (dup32 ((imm8 <<< 16) ||| 0xffff))
    else some (dup32 ((imm8 <<< 8) ||| 0xff))
  else
    if cmode &&& 1 = 0 then
      if op = 0 then some (0x0101010101010101 * imm8)
      else if op = 1 then
        some ((List.range 8).foldl
          (fun acc i => acc ||| (if imm8.testBit i then 0xff <<< (8 * i) else 0)) 0)
      else none
    else
      if op = 0 then
        let bit7 := imm8 / 128 % 2
        let bit6 := imm8 / 64 % 2
        let imm32 := (bit7 <<< 31) ||| ((1 - bit6) <<< 30) |||
          ((if bit6 = 1 then (0x1f : Nat) else 0) <<< 25) ||| ((imm8 % 64) <<< 19)
        some (dup32 imm32)
      else
        some (((imm8 / 128 % 2) <<< 63) ||| ((1 - imm8 / 64 % 2) <<< 62) |||
              ((if imm8 / 64 % 2 = 1 then (0xff : Nat) else 0) <<< 54) |||
              ((imm8 % 64) <<< 48))

/-- `adv_simd_expand_imm` agrees with the spec's eight-row table on every
`(op, cmode, imm8)` (`k` enumerates `op * 4096 + cmode * 256 + imm8`). -/
def checkC6 : Bool :=
  all_below (fun k =>
    decide (adv_simd_expand_imm (k / 4096) (k / 256 % 16) (k % 256) =
      expand_imm_table (k / 4096) (k / 256 % 16) (k % 256))) 14 0 8192

/-- Modelled from the spec: arithmetic shift right of a 64-bit value, as the
floor division of its signed interpretation by `2^k` (reduced to a
`uint64_t` bit pattern). -/
def asr64_spec (v k : Nat) : Nat := ((Int.fdiv (toInt64 v) (2 ^ k)) % (M64 : Int)).toNat

/-- Modelled from the spec: same-sign infinities (whose IEEE difference is
NaN although the operands compare equal). -/
def fp_same_signed_inf : FPValue → FPValue → Bool
  | .posInf, .posInf => true
  | .negInf, .negInf => true
  | _, _ => false

/-- All registers zero. -/
def zeroRegs : Nat → Nat := fun _ => 0

/-- A machine with the given registers and everything else zero / false. -/
def mk_machine (regs : Nat → Nat) : Arm64 :=
  { regs := regs, pc := 0, fN := false, fZ := false, fC := false, fV := false,
    cycles_so_far := 0, gState := 0 }

/-- Machine with all state zero. -/
def machine0 : Arm64 := mk_machine zeroRegs

/-- Machine at pc 0 with 5 cycles already retired (for the taken-branch
counterexample). -/
def machineB : Arm64 := { mk_machine zeroRegs with cycles_so_far := 5 }

/-- Guest memory holding the single instruction `B +8` (0x14000002) at
address 0, little-endian. -/
def memB : Mem := fun a => if a = 0 then 0x02 else if a = 3 then 0x14 else 0

/-- The state after the taken `B +8` from `machineB` (pc 8, cycles still 5). -/
def machineB8 : Arm64 := { machineB with pc := 8 }

/-- A machine with the end-emulation bit of `g_State` set. -/
def machineG2 : Arm64 := { machine0 with gState := 2 }

/-- Guest memory holding `B +8` at 0 and `ADDS x0, x0, #0` (0xb1000000) at
8 and at 12. -/
def memC7 : Mem := fun a =>
  if a = 0 then 0x02 else if a = 3 then 0x14
  else if a = 11 then 0xb1 else if a = 15 then 0xb1 else 0

/-- Registers for the SDIV counterexample: x0 = 0 (divisor), x1 = 7
(dividend), x2 = 5 (old destination). -/
def regsC2 : Nat → Nat := fun i => if i = 1 then 7 else if i = 2 then 5 else 0

/-- Registers for the UDIV (W form) division-by-zero input: x0 = 2^32
(so w0 = 0 but x0 ≠ 0), x1 = 7. -/
def regsC2u : Nat → Nat := fun i => if i = 0 then 4294967296 else if i = 1 then 7 else 0

/-- Registers for the RORV counterexample: x0 = 65 (shift amount),
x1 = 1 (value). -/
def regsC10 : Nat → Nat := fun i => if i = 0 then 65 else if i = 1 then 1 else 0

/-- A vector register whose byte 8 is 0xab and all other bytes are zero. -/
def vregC3 : VReg := fun i => if i = 8 then 0xab else 0

/-- The all-zero vector register. -/
def vregZero : VReg := fun _ => 0

/-! ### Basic lemmas about the embedded state operations -/

theorem M64_eq : M64 = 2 ^ 64 := rfl

theorem M32_eq : M32 = 2 ^ 32 := rfl

@[simp] theorem setReg_pc (s : Arm64) (d v : Nat) : (s.setReg d v).pc = s.pc := rfl

@[simp] theorem setReg_cycles (s : Arm64) (d v : Nat) :
    (s.setReg d v).cycles_so_far = s.cycles_so_far := rfl

@[simp] theorem setReg_gState (s : Arm64) (d v : Nat) :
    (s.setReg d v).gState = s.gState := rfl

@[simp] theorem setReg_fN (s : Arm64) (d v : Nat) : (s.setReg d v).fN = s.fN := rfl

@[simp] theorem setReg_fZ (s : Arm64) (d v : Nat) : (s.setReg d v).fZ = s.fZ := rfl

@[simp] theorem setReg_fC (s : Arm64) (d v : Nat) : (s.setReg d v).fC = s.fC := rfl

@[simp] theorem setReg_fV (s : Arm64) (d v : Nat) : (s.setReg d v).fV = s.fV := rfl

@[simp] theorem awc64_pc (s : Arm64) (x y : Nat) (c f : Bool) :
    ((s.add_with_carry64 x y c f).1).pc = s.pc := by cases f <;> rfl

@[simp] theorem awc64_cycles (s : Arm64) (x y : Nat) (c f : Bool) :
    ((s.add_with_carry64 x y c f).1).cycles_so_far = s.cycles_so_far := by cases f <;> rfl

@[simp] theorem awc64_gState (s : Arm64) (x y : Nat) (c f : Bool) :
    ((s.add_with_carry64 x y c f).1).gState = s.gState := by cases f <;> rfl

@[simp] theorem awc64_regs (s : Arm64) (x y : Nat) (c f : Bool) :
    ((s.add_with_carry64 x y c f).1).regs = s.regs := by cases f <;> rfl

@[simp] theorem awc32_pc (s : Arm64) (x y : Nat) (c f : Bool) :
    ((s.add_with_carry32 x y c f).1).pc = s.pc := by cases f <;> rfl

@[simp] theorem awc32_cycles (s : Arm64) (x y : Nat) (c f : Bool) :
    ((s.add_with_carry32 x y c f).1).cycles_so_far = s.cycles_so_far := by cases f <;> rfl

@[simp] theorem awc32_gState (s : Arm64) (x y : Nat) (c f : Bool) :
    ((s.add_with_carry32 x y c f).1).gState = s.gState := by cases f <;> rfl

@[simp] theorem awc32_regs (s : Arm64) (x y : Nat) (c f : Bool) :
    ((s.add_with_carry32 x y c f).1).regs = s.regs := by cases f <;> rfl

@[simp] theorem sub64_pc (s : Arm64) (x y : Nat) (f : Bool) :
    ((s.sub64 x y f).1).pc = s.pc := awc64_pc ..

@[simp] theorem sub64_cycles (s : Arm64) (x y : Nat) (f : Bool) :
    ((s.sub64 x y f).1).cycles_so_far = s.cycles_so_far := awc64_cycles ..

@[simp] theorem sub64_gState (s : Arm64) (x y : Nat) (f : Bool) :
    ((s.sub64 x y f).1).gState = s.gState := awc64_gState ..

@[simp] theorem sub64_regs (s : Arm64) (x y : Nat) (f : Bool) :
    ((s.sub64 x y f).1).regs = s.regs := awc64_regs ..

@[simp] theorem sub32_pc (s : Arm64) (x y : Nat) (f : Bool) :
    ((s.sub32 x y f).1).pc = s.pc := awc32_pc ..

@[simp] theorem sub32_cycles (s : Arm64) (x y : Nat) (f : Bool) :
    ((s.sub32 x y f).1).cycles_so_far = s.cycles_so_far := awc32_cycles ..

@[simp] theorem sub32_gState (s : Arm64) (x y : Nat) (f : Bool) :
    ((s.sub32 x y f).1).gState = s.gState := awc32_gState ..

@[simp] theorem sub32_regs (s : Arm64) (x y : Nat) (f : Bool) :
    ((s.sub32 x y f).1).regs = s.regs := awc32_regs ..

/-! ### Lemmas about add_with_carry64 (claim C4) -/

theorem awc64_C (x y : Nat) (c : Bool) (hx : x < M64) (hy : y < M64) :
    (add_with_carry64_flags x y c).C =
      decide (M64 ≤ x + y + (if c then 1 else 0)) := by
  have hAnd1 : ∀ a : Nat, a &&& (0xffffffff : Nat) = a % 2 ^ 32 := fun a => by
    rw [show (0xffffffff : Nat) = 2 ^ 32 - 1 by norm_num, Nat.and_pow_two_sub_one_eq_mod]
  have hAnd2 : ∀ a : Nat, (0xffffffff : Nat) &&& a = a % 2 ^ 32 := fun a => by
    rw [Nat.and_comm, hAnd1]
  have hor : ∀ a b : Nat, b < 2 ^ 32 → ((a <<< 32) % M64) ||| b = 2 ^ 32 * (a % 2 ^ 32) + b := by
    intro a b hb
    rw [Nat.shiftLeft_eq, M64_eq, show (2:Nat) ^ 64 = 2 ^ 32 * 2 ^ 32 by norm_num,
      Nat.mul_mod_mul_right, Nat.mul_comm, ← Nat.mul_add_lt_is_or hb]
  rcases c with _ | _
  · simp only [add_with_carry64_flags, hAnd1, hAnd2, Nat.shiftRight_eq_div_pow,
      if_false, Bool.false_eq_true, and_false, if_true]
    rw [hor _ _ (Nat.mod_lt _ (by norm_num))]
    rw [decide_eq_decide]
    simp only [M64] at hx hy ⊢
    omega
  · by_cases hYc : y = 0xffffffffffffffff
    · simp only [add_with_carry64_flags, hAnd1, hAnd2, Nat.shiftRight_eq_div_pow, hYc,
        if_true, and_self, if_pos, true_and]
      rw [hor _ _ (Nat.mod_lt _ (by norm_num))]
      rw [decide_eq_decide]
      simp only [M64] at hx hy ⊢
      omega
    · simp only [add_with_carry64_flags, hAnd1, hAnd2, Nat.shiftRight_eq_div_pow,
        if_true, hYc, false_and, if_false, and_true]
      rw [hor _ _ (Nat.mod_lt _ (by norm_num))]
      rw [decide_eq_decide]
      simp only [M64] at hx hy ⊢
      omega

theorem awc64_V (x y : Nat) (c : Bool) (hx : x < M64) (hy : y < M64) :
    (add_with_carry64_flags x y c).V =
      decide (¬(-(2 ^ 63 : Int) ≤ toInt64 x + toInt64 y + (if c then 1 else 0) ∧
                toInt64 x + toInt64 y + (if c then 1 else 0) < 2 ^ 63)) := by
  simp only [add_with_carry64_flags, toInt64, M64] at hx hy ⊢
  rw [decide_eq_decide]
  rcases c with _ | _ <;> split_ifs <;> push_cast <;> omega

theorem awc64_N (x y : Nat) (c : Bool) :
    (add_with_carry64_flags x y c).N =
      decide (2 ^ 63 ≤ (x + y + (if c then 1 else 0)) % M64) := by
  simp only [add_with_carry64_flags, toInt64, M64]
  rw [decide_eq_decide]
  split_ifs <;> omega

theorem awc64_Z (x y : Nat) (c : Bool) :
    (add_with_carry64_flags x y c).Z =
      decide ((x + y + (if c then 1 else 0)) % M64 = 0) := rfl

theorem awc64_result (s : Arm64) (x y : Nat) (c f : Bool) :
    (s.add_with_carry64 x y c f).2 = (x + y + (if c then 1 else 0)) % M64 := by
  cases f <;> rfl

theorem awc64_flags_proj (s : Arm64) (x y : Nat) (c : Bool) :
    ((s.add_with_carry64 x y c true).1.fN, (s.add_with_carry64 x y c true).1.fZ,
     (s.add_with_carry64 x y c true).1.fC, (s.add_with_carry64 x y c true).1.fV) =
      ((add_with_carry64_flags x y c).N, (add_with_carry64_flags x y c).Z,
       (add_with_carry64_flags x y c).C, (add_with_carry64_flags x y c).V) := rfl

theorem testBit63 (r : Nat) (hr : r < M64) : r.testBit 63 = decide (2 ^ 63 ≤ r) := by
  rw [Nat.testBit_to_div_mod, decide_eq_decide]
  simp only [M64] at hr
  omega

theorem awc64_fN_proj (s : Arm64) (x y : Nat) (c : Bool) :
    (s.add_with_carry64 x y c true).1.fN = (add_with_carry64_flags x y c).N := rfl

theorem awc64_fZ_proj (s : Arm64) (x y : Nat) (c : Bool) :
    (s.add_with_carry64 x y c true).1.fZ = (add_with_carry64_flags x y c).Z := rfl

theorem awc64_fC_proj (s : Arm64) (x y : Nat) (c : Bool) :
    (s.add_with_carry64 x y c true).1.fC = (add_with_carry64_flags x y c).C := rfl

theorem awc64_fV_proj (s : Arm64) (x y : Nat) (c : Bool) :
    (s.add_with_carry64 x y c true).1.fV = (add_with_carry64_flags x y c).V := rfl

theorem toInt64_c_not64 (y : Nat) (hy : y < M64) :
    toInt64 (c_not64 y) = -1 - toInt64 y := by
  simp only [toInt64, c_not64, M64] at hy ⊢
  split_ifs <;> push_cast <;> omega

theorem C4_subs_flags (s : Arm64) (x y : Nat) (hx : x < M64) (hy : y < M64) :
    (s.add_with_carry64 x (c_not64 y) true true).2 = (x + (M64 - y)) % M64 ∧
    (s.add_with_carry64 x (c_not64 y) true true).1.fN =
      ((x + (M64 - y)) % M64).testBit 63 ∧
    (s.add_with_carry64 x (c_not64 y) true true).1.fZ =
      decide ((x + (M64 - y)) % M64 = 0) ∧
    (s.add_with_carry64 x (c_not64 y) true true).1.fC = decide (y ≤ x) ∧
    (s.add_with_carry64 x (c_not64 y) true true).1.fV =
      decide (¬(-(2 ^ 63 : Int) ≤ toInt64 x - toInt64 y ∧
                toInt64 x - toInt64 y < 2 ^ 63)) ∧
    ((s.add_with_carry64 x (c_not64 x) true true).1.fN,
     (s.add_with_carry64 x (c_not64 x) true true).1.fZ,
     (s.add_with_carry64 x (c_not64 x) true true).1.fC,
     (s.add_with_carry64 x (c_not64 x) true true).1.fV) = (false, true, true, false) := by
  have hny : c_not64 y < M64 := by simp only [c_not64, M64]; omega
  have hnx : c_not64 x < M64 := by simp only [c_not64, M64]; omega
  have hre : x + c_not64 y + (if (true : Bool) then 1 else 0) = x + (M64 - y) := by
    simp only [c_not64, M64, if_true] at hy ⊢
    omega
  have hrex : x + c_not64 x + (if (true : Bool) then 1 else 0) = x + (M64 - x) := by
    simp only [c_not64, M64, if_true] at hx ⊢
    omega
  have hmlt : (x + (M64 - y)) % M64 < M64 := Nat.mod_lt _ (by simp only [M64]; omega)
  refine ⟨?_, ?_, ?_, ?_, ?_, ?_⟩
  · rw [awc64_result, hre]
  · rw [awc64_fN_proj, awc64_N, hre, testBit63 _ hmlt]
  · rw [awc64_fZ_proj, awc64_Z, hre]
  · rw [awc64_fC_proj, awc64_C _ _ _ hx hny, hre, decide_eq_decide]
    simp only [M64] at hy ⊢
    omega
  · rw [awc64_fV_proj, awc64_V _ _ _ hx hny, toInt64_c_not64 y hy, decide_eq_decide]
    simp only [if_true]
    constructor <;> intro h <;> (intro hcon; apply h; constructor <;> omega)
  · rw [awc64_fN_proj, awc64_N, awc64_fZ_proj, awc64_Z, awc64_fC_proj,
      awc64_C _ _ _ hx hnx, awc64_fV_proj, awc64_V _ _ _ hx hnx, toInt64_c_not64 x hx, hrex]
    have h0 : (x + (M64 - x)) % M64 = 0 := by simp only [M64] at hx ⊢; omega
    have hC : M64 ≤ x + (M64 - x) := by simp only [M64] at hx ⊢; omega
    rw [h0]
    simp only [Prod.mk.injEq, if_true, decide_eq_false_iff_not, decide_eq_true_iff]
    refine ⟨by simp [testBit63 0 (by simp [M64]), M64], by simp, by simp [hC], ?_⟩
    intro hcon
    apply hcon
    constructor <;> omega

/-! ### Frame and shape lemmas for the dispatch handlers (claims C1, C7) -/

theorem dp_2src_tail_shape (hi8 d : Nat) (s2 s : Arm64)
    (hpc : s2.pc = s.pc) (hcy : s2.cycles_so_far = s.cycles_so_far)
    (hgs : s2.gState = s.gState) :
    ∃ s1, dp_2src_tail hi8 d s2 = .fellThrough s1 ∧ s1.pc = s.pc ∧
      s1.cycles_so_far = s.cycles_so_far ∧ s1.gState = s.gState := by
  dsimp only [dp_2src_tail]
  split
  · exact ⟨_, rfl, by simp [hpc], by simp [hcy], by simp [hgs]⟩
  · exact ⟨_, rfl, hpc, hcy, hgs⟩

theorem exec_dp_2src_shape (s : Arm64) (op hi8 : Nat) (r : StepResult)
    (h : exec_dp_2src s op hi8 = r) :
    (∃ s1, r = .fellThrough s1 ∧ s1.pc = s.pc ∧ s1.cycles_so_far = s.cycles_so_far ∧
      s1.gState = s.gState) ∨ r = .fatal ∨ r = .hostDivByZero := by
  dsimp only [exec_dp_2src] at h
  by_cases hA : opbits op 0 5 = 31
  · rw [if_pos hA] at h
    exact Or.inl ⟨s, h.symm, rfl, rfl, rfl⟩
  rw [if_neg hA] at h
  by_cases h1 : opbits op 10 2 = 0 ∧ opbits op 21 3 = 4
  · rw [if_pos h1] at h
    rw [← h]
    exact Or.inl (dp_2src_tail_shape _ _ _ _ (by split <;> simp) (by split <;> simp)
      (by split <;> simp))
  rw [if_neg h1] at h
  by_cases h2 : opbits op 10 2 = 1 ∧ opbits op 21 3 = 4
  · rw [if_pos h2] at h
    rw [← h]
    exact Or.inl (dp_2src_tail_shape _ _ _ _ (by split <;> simp) (by split <;> simp)
      (by split <;> simp))
  rw [if_neg h2] at h
  by_cases h3 : opbits op 10 2 = 2 ∧ opbits op 21 3 = 6 ∧ opbits op 12 4 = 2
  · rw [if_pos h3] at h
    rw [← h]
    split <;>
      exact Or.inl (dp_2src_tail_shape _ _ _ _ (by simp) (by simp) (by simp))
  rw [if_neg h3] at h
  by_cases h4 : opbits op 10 2 = 2 ∧ opbits op 21 3 = 6 ∧ opbits op 12 4 = 0
  · rw [if_pos h4] at h
    rw [← h]
    split
    · exact Or.inl (dp_2src_tail_shape _ _ _ _ (by simp) (by simp) (by simp))
    split
    · exact Or.inl (dp_2src_tail_shape _ _ _ _ (by simp) (by simp) (by simp))
    split
    · exact Or.inr (Or.inr rfl)
    · exact Or.inl (dp_2src_tail_shape _ _ _ _ (by simp) (by simp) (by simp))
  rw [if_neg h4] at h
  by_cases h5 : opbits op 10 2 = 3 ∧ opbits op 21 3 = 6 ∧ opbits op 12 4 = 0
  · rw [if_pos h5] at h
    rw [← h]
    split <;> split <;>
      exact Or.inl (dp_2src_tail_shape _ _ _ _ (by simp) (by simp) (by simp))
  rw [if_neg h5] at h
  by_cases h6 : opbits op 10 2 = 1 ∧ opbits op 21 3 = 6 ∧ opbits op 12 4 = 2
  · rw [if_pos h6] at h
    rw [← h]
    split <;>
      exact Or.inl (dp_2src_tail_shape _ _ _ _ (by simp) (by simp) (by simp))
  rw [if_neg h6] at h
  by_cases h7 : opbits op 10 2 = 0 ∧ opbits op 21 3 = 6 ∧ opbits op 12 4 = 2
  · rw [if_pos h7] at h
    rw [← h]
    split <;>
      exact Or.inl (dp_2src_tail_shape _ _ _ _ (by simp) (by simp) (by simp))
  rw [if_neg h7] at h
  by_cases h8 : opbits op 10 2 = 0 ∧ opbits op 21 3 = 0 ∧ opbits op 12 4 = 0
  · rw [if_pos h8] at h
    rw [← h]
    split <;>
      exact Or.inl (dp_2src_tail_shape _ _ _ _ (by simp) (by simp) (by simp))
  rw [if_neg h8] at h
  by_cases h9 : opbits op 10 2 = 3 ∧ opbits op 21 3 = 6 ∧ opbits op 12 4 = 2
  · rw [if_pos h9] at h
    rw [← h]
    split <;> split <;> first
      | exact Or.inr (Or.inl rfl)
      | exact Or.inl (dp_2src_tail_shape _ _ _ _ (by simp) (by simp) (by simp))
  rw [if_neg h9] at h
  exact Or.inr (Or.inl h.symm)

theorem exec_addsub_imm_flags_shape (s : Arm64) (op hi8 : Nat) :
    ∃ s1, exec_addsub_imm_flags s op hi8 = .fellThrough s1 ∧ s1.pc = s.pc ∧
      s1.cycles_so_far = s.cycles_so_far ∧ s1.gState = s.gState := by
  dsimp only [exec_addsub_imm_flags]
  split <;>
    (refine ⟨_, rfl, ?_, ?_, ?_⟩ <;>
      (try simp only [setReg_pc, setReg_cycles, setReg_gState]
       repeat' split
       all_goals simp))

theorem exec_addsub_reg_shape (s : Arm64) (op hi8 : Nat) (r : StepResult)
    (h : exec_addsub_reg s op hi8 = r) :
    (∃ s1, r = .fellThrough s1 ∧ s1.pc = s.pc ∧ s1.cycles_so_far = s.cycles_so_far ∧
      s1.gState = s.gState) ∨ r = .fatal := by
  dsimp only [exec_addsub_reg] at h
  split at h
  · exact Or.inr h.symm
  · rw [← h]
    split
    all_goals
      refine Or.inl ⟨_, rfl, ?_, ?_, ?_⟩ <;>
        (try simp only [setReg_pc, setReg_cycles, setReg_gState]
         repeat' split
         all_goals simp)

theorem exec_b_shape (s : Arm64) (op : Nat) :
    exec_b s op =
      .branched { s with pc := (s.pc + sign_extend ((opbits op 0 26) <<< 2) 27) % M64 } := rfl

theorem exec_bl_shape (s : Arm64) (op : Nat) (r : StepResult)
    (h : exec_bl s op = r) :
    ∃ s1, r = .branched s1 ∧
      s1.pc = (s.pc + sign_extend ((opbits op 0 26) <<< 2) 27) % M64 ∧
      s1.cycles_so_far = s.cycles_so_far ∧ s1.gState = s.gState := by
  dsimp only [exec_bl] at h
  exact ⟨_, h.symm, by simp, rfl, rfl⟩

theorem exec_b_cond_shape (s : Arm64) (op : Nat) (r : StepResult)
    (h : exec_b_cond s op = r) :
    r = .fellThrough s ∨
      r = .branched { s with pc := (s.pc + sign_extend ((opbits op 5 19) <<< 2) 20) % M64 } := by
  dsimp only [exec_b_cond] at h
  split at h
  · exact Or.inr h.symm
  · exact Or.inl h.symm

theorem exec_cbz_shape (s : Arm64) (op hi8 : Nat) (r : StepResult)
    (h : exec_cbz_cbnz s op hi8 = r) :
    r = .fellThrough s ∨
      r = .branched { s with pc := (s.pc + sign_extend ((op >>> 3) &&& 0x1ffffc) 20) % M64 } := by
  dsimp only [exec_cbz_cbnz] at h
  repeat' split at h
  all_goals first
    | exact Or.inr h.symm
    | exact Or.inl h.symm

theorem exec_tbz_shape (s : Arm64) (op hi8 : Nat) (r : StepResult)
    (h : exec_tbz_tbnz s op hi8 = r) :
    r = .fellThrough s ∨
      r = .branched { s with pc := (s.pc + sign_extend ((opbits op 5 14) <<< 2) 15) % M64 } := by
  dsimp only [exec_tbz_tbnz] at h
  repeat' split at h
  all_goals first
    | exact Or.inr h.symm
    | exact Or.inl h.symm

theorem exec_d6_shape (s : Arm64) (op : Nat) (r : StepResult)
    (h : exec_br_blr_ret s op = r) :
    r = .fatal ∨
      (∃ s1, r = .branched s1 ∧ s1.pc = s.regs (opbits op 5 5) ∧
        s1.cycles_so_far = s.cycles_so_far ∧ s1.gState = s.gState) := by
  dsimp only [exec_br_blr_ret] at h
  split at h
  · exact Or.inl h.symm
  split at h
  · exact Or.inl h.symm
  split at h
  · exact Or.inl h.symm
  split at h
  · exact Or.inr ⟨_, h.symm, rfl, rfl, rfl⟩
  split at h
  · refine Or.inr ⟨_, h.symm, ?_, rfl, rfl⟩
    simp
  split at h
  · exact Or.inr ⟨_, h.symm, rfl, rfl, rfl⟩
  · exact Or.inl h.symm

theorem execute_fellThrough_frame (s : Arm64) (op : Nat) (s1 : Arm64)
    (h : execute s op = .fellThrough s1) :
    s1.pc = s.pc ∧ s1.cycles_so_far = s.cycles_so_far ∧ s1.gState = s.gState := by
  dsimp only [execute] at h
  split_ifs at h with h1 h2 h3 h4 h5 h6 h7 h8 h9
  · rw [exec_b_shape] at h
    cases h
  · rcases exec_b_cond_shape s op _ h with h' | h'
    · injection h' with h'
      subst h'
      exact ⟨rfl, rfl, rfl⟩
    · cases h'
  · obtain ⟨s2, he, _, _, _⟩ := exec_bl_shape s op _ h
    cases he
  · rcases exec_d6_shape s op _ h with he | ⟨s2, he, _, _, _⟩ <;> cases he
  · rcases exec_cbz_shape s op _ _ h with h' | h'
    · injection h' with h'
      subst h'
      exact ⟨rfl, rfl, rfl⟩
    · cases h'
  · rcases exec_tbz_shape s op _ _ h with h' | h'
    · injection h' with h'
      subst h'
      exact ⟨rfl, rfl, rfl⟩
    · cases h'
  · rcases exec_dp_2src_shape s op _ _ h with ⟨s2, he, hp, hc, hg⟩ | he | he
    · injection he with he
      subst he
      exact ⟨hp, hc, hg⟩
    · cases he
    · cases he
  · obtain ⟨s2, he, hp, hc, hg⟩ := exec_addsub_imm_flags_shape s op (op >>> 24)
    rw [he] at h
    injection h with h
    subst h
    exact ⟨hp, hc, hg⟩
  · rcases exec_addsub_reg_shape s op _ _ h with ⟨s2, he, hp, hc, hg⟩ | he
    · injection he with he
      subst he
      exact ⟨hp, hc, hg⟩
    · cases he

theorem execute_branched_target (s : Arm64) (op : Nat) (s1 : Arm64)
    (h : execute s op = .branched s1) :
    s1.cycles_so_far = s.cycles_so_far ∧ s1.gState = s.gState ∧
    branch_target op s = some s1.pc := by
  dsimp only [execute] at h
  split_ifs at h with h1 h2 h3 h4 h5 h6 h7 h8 h9
  · rw [exec_b_shape] at h
    injection h with h
    subst h
    refine ⟨rfl, rfl, ?_⟩
    rcases h1 with h' | h' | h' | h' <;> simp [branch_target, h']
  · rcases exec_b_cond_shape s op _ h with h' | h'
    · cases h'
    · injection h' with h'
      subst h'
      refine ⟨rfl, rfl, ?_⟩
      simp [branch_target, h2]
  · obtain ⟨s2, he, hp, hc, hg⟩ := exec_bl_shape s op _ h
    injection he with he
    subst he
    refine ⟨hc, hg, ?_⟩
    rcases h3 with h' | h' | h' | h' <;> simp [branch_target, h', hp]
  · rcases exec_d6_shape s op _ h with he | ⟨s2, he, hp, hc, hg⟩
    · cases he
    · injection he with he
      subst he
      refine ⟨hc, hg, ?_⟩
      simp [branch_target, h4, hp]
  · rcases exec_cbz_shape s op _ _ h with h' | h'
    · cases h'
    · injection h' with h'
      subst h'
      refine ⟨rfl, rfl, ?_⟩
      rcases h5 with h' | h' | h' | h' <;> simp [branch_target, h']
  · rcases exec_tbz_shape s op _ _ h with h' | h'
    · cases h'
    · injection h' with h'
      subst h'
      refine ⟨rfl, rfl, ?_⟩
      rcases h6 with h' | h' | h' | h' <;> simp [branch_target, h']
  · rcases exec_dp_2src_shape s op _ _ h with ⟨s2, he, _, _, _⟩ | he | he <;> cases he
  · obtain ⟨s2, he, _, _, _⟩ := exec_addsub_imm_flags_shape s op (op >>> 24)
    rw [he] at h
    cases h
  · rcases exec_addsub_reg_shape s op _ _ h with ⟨s2, he, _, _, _⟩ | he <;> cases he

theorem run_body_next_cases (mem : Mem) (s s1 : Arm64)
    (h : run_body mem s = .next s1) :
    (s1.pc = (s.pc + 4) % M64 ∧ s1.cycles_so_far = (s.cycles_so_far + 1) % M64 ∧
      s1.gState = s.gState) ∨
    (s1.cycles_so_far = s.cycles_so_far ∧ s1.gState = s.gState ∧
      branch_target (getui32 mem s.pc) s = some s1.pc) := by
  dsimp only [run_body] at h
  split at h
  · cases h
  · split at h
    case _ s2 heq =>
      injection h with h
      subst h
      obtain ⟨hp, hc, hg⟩ := execute_fellThrough_frame s _ s2 heq
      exact Or.inl ⟨by simp [hp], by simp [hc], by simp [hg]⟩
    case _ s2 heq =>
      injection h with h
      subst h
      obtain ⟨hc, hg, ht⟩ := execute_branched_target s _ s2 heq
      exact Or.inr ⟨hc, hg, ht⟩
    case _ => cases h
    case _ => cases h

/-! ### Claim theorems, witnesses and counterexamples -/

/-- C8: (corrected) FCMP classifies the host difference `a - b`, so NaN
operands or equal same-signed infinities (whose difference is NaN) give
`(N,Z,C,V) = (0,0,1,1)`; otherwise equal operands give `(0,1,1,0)`, less
`(1,0,0,0)` and greater `(0,0,1,0)`. -/
theorem C8_fcmp_flags (s : Arm64) (a b : FPValue) :
    ((fcmp_double s a b).fN, (fcmp_double s a b).fZ,
     (fcmp_double s a b).fC, (fcmp_double s a b).fV) =
      (if fp_isnan a || fp_isnan b || fp_same_signed_inf a b then (false, false, true, true)
       else if fp_eq a b then (false, true, true, false)
       else if fp_lt a b then (true, false, false, false)
       else (false, false, true, false)) := by
  cases a <;> cases b <;>
    simp only [fcmp_double, fp_sub, Arm64.set_flags_from_double, fp_isnan, fp_iszero,
      fp_isneg, fp_eq, fp_lt, fp_same_signed_inf, Bool.or_self, Bool.or_true, Bool.true_or,
      Bool.or_false, Bool.false_or, if_true, if_false] <;>
    try rfl
  case finite.finite q r =>
    rcases lt_trichotomy q r with h | h | h
    · have h1 : ¬(q = r) := ne_of_lt h
      have h2 : q - r < 0 := by linarith
      have h3 : ¬(q - r = 0) := by intro hc; apply h1; linarith
      simp [h1, h2, h3, h]
    · subst h
      simp
    · have h1 : ¬(q = r) := ne_of_gt h
      have h2 : ¬(q - r < 0) := by intro hc; apply h1; linarith
      have h3 : ¬(q - r = 0) := by intro hc; apply h1; linarith
      have h4 : ¬(q < r) := not_lt.mpr (le_of_lt h)
      simp [h1, h2, h3, h4]

/-- Counterexample to C8 as stated: FCMP of two positive infinities, which
compare equal, yields the unordered flags `(0,0,1,1)`, not `(0,1,1,0)`. -/
theorem C8_counterexample :
    fp_eq .posInf .posInf = true ∧
    ((fcmp_double machine0 .posInf .posInf).fN, (fcmp_double machine0 .posInf .posInf).fZ,
     (fcmp_double machine0 .posInf .posInf).fC, (fcmp_double machine0 .posInf .posInf).fV) =
      (false, false, true, true) ∧
    ((false, false, true, true) : Bool × Bool × Bool × Bool) ≠ (false, true, true, false) :=
  ⟨rfl, rfl, by decide⟩

theorem opbits_div_mod (op lo len : Nat) : opbits op lo len = op / 2 ^ lo % 2 ^ len := by
  unfold opbits
  rw [Nat.one_shiftLeft, Nat.and_pow_two_sub_one_eq_mod, Nat.shiftRight_eq_div_pow]

theorem opbits_sub31 (op k len : Nat) (h : op % 32 = 31) (hk : 5 ≤ k) :
    opbits (op - 31) k len = opbits op k len := by
  rw [opbits_div_mod, opbits_div_mod]
  obtain ⟨j, rfl⟩ := Nat.exists_eq_add_of_le hk
  rw [pow_add, ← Nat.div_div_eq_div_mul, ← Nat.div_div_eq_div_mul]
  have h5 : (op - 31) / 2 ^ 5 = op / 2 ^ 5 := by omega
  rw [h5]

theorem opbits_0_5_sub31 (op : Nat) (h : op % 32 = 31) : opbits (op - 31) 0 5 = 0 := by
  rw [opbits_div_mod]
  omega

theorem opbits_0_5_self (op : Nat) (h : op % 32 = 31) : opbits op 0 5 = 31 := by
  rw [opbits_div_mod]
  omega

/-- The ADDS/SUBS-immediate handler with destination field 31 leaves the
register file unchanged and computes the flags of destination field 0. -/
theorem addsub_imm_zr_frame (s : Arm64) (op hi8 : Nat) (hd : op % 32 = 31) :
    s.val_reg_or_zr 31 = 0 ∧
    (exec_addsub_imm_flags s op hi8).regsOf = some s.regs ∧
    (exec_addsub_imm_flags s op hi8).flagsOf =
      (exec_addsub_imm_flags s (op - 31) hi8).flagsOf := by
  refine ⟨rfl, ?_, ?_⟩
  · simp only [exec_addsub_imm_flags, opbits_0_5_self op hd]
    norm_num [StepResult.regsOf]
    all_goals repeat' split
    all_goals simp
  · simp only [exec_addsub_imm_flags, opbits_sub31 op 10 12 hd (by norm_num),
      opbits_sub31 op 5 5 hd (by norm_num), opbits_sub31 op 22 1 hd (by norm_num),
      opbits_0_5_self op hd, opbits_0_5_sub31 op hd]
    norm_num [StepResult.flagsOf]
    all_goals repeat' split
    all_goals simp

theorem shift_reg64_isSome (s : Arm64) (reg st am : Nat) (h : st < 4) :
    ∃ v, s.shift_reg64 reg st am = some v := by
  dsimp only [Arm64.shift_reg64]
  interval_cases st <;> (repeat' split) <;> first
    | exact ⟨_, rfl⟩
    | omega

theorem shift_reg32_isSome (s : Arm64) (reg st am : Nat) (h : st < 4) :
    ∃ v, s.shift_reg32 reg st am = some v := by
  dsimp only [Arm64.shift_reg32]
  interval_cases st <;> (repeat' split) <;> first
    | exact ⟨_, rfl⟩
    | omega

set_option maxHeartbeats 1000000 in
theorem extend_reg_isSome (s : Arm64) (m et sh : Nat) (h : et < 8) :
    ∃ v, s.extend_reg m et sh = some v := by
  dsimp only [Arm64.extend_reg]
  interval_cases et <;> (repeat' split) <;> first
    | exact ⟨_, rfl⟩
    | omega

theorem opbits_lt (op lo len : Nat) : opbits op lo len < 2 ^ len := by
  rw [opbits_div_mod]
  exact Nat.mod_lt _ (Nat.pos_pow_of_pos len (by norm_num))

/-- The flag-setting ADD/SUB-register handler with destination field 31
leaves the register file unchanged and computes the flags of destination
field 0. -/
theorem addsub_reg_zr_frame (s : Arm64) (op hi8 : Nat) (hd : op % 32 = 31)
    (hsf : hi8 &&& 0x20 ≠ 0) :
    (exec_addsub_reg s op hi8).regsOf = some s.regs ∧
    (exec_addsub_reg s op hi8).flagsOf = (exec_addsub_reg s (op - 31) hi8).flagsOf := by
  obtain ⟨off, hOpt⟩ : ∃ v,
      (if opbits op 21 1 = 1 then
        s.extend_reg (opbits op 16 5) (opbits op 13 3) (opbits op 10 3)
      else if hi8 &&& 0x80 ≠ 0 then
        s.shift_reg64 (opbits op 16 5) (opbits op 22 2) (opbits op 10 6)
      else s.shift_reg32 (opbits op 16 5) (opbits op 22 2) (opbits op 10 6)) = some v := by
    split
    · exact extend_reg_isSome s _ _ _ (opbits_lt op 13 3)
    split
    · exact shift_reg64_isSome s _ _ _ (opbits_lt op 22 2)
    · exact shift_reg32_isSome s _ _ _ (opbits_lt op 22 2)
  constructor
  · simp only [exec_addsub_reg, opbits_0_5_self op hd, hOpt]
    simp only [hsf, StepResult.regsOf, ne_eq, not_true_eq_false, or_self, if_false,
      not_false_eq_true, not_true, or_false, false_or]
    all_goals repeat' split
    all_goals simp
  · simp only [exec_addsub_reg, opbits_sub31 op 21 1 hd (by norm_num),
      opbits_sub31 op 16 5 hd (by norm_num), opbits_sub31 op 5 5 hd (by norm_num),
      opbits_sub31 op 13 3 hd (by norm_num), opbits_sub31 op 10 3 hd (by norm_num),
      opbits_sub31 op 22 2 hd (by norm_num), opbits_sub31 op 10 6 hd (by norm_num),
      opbits_0_5_self op hd, opbits_0_5_sub31 op hd, hOpt]
    simp only [hsf, StepResult.flagsOf, ne_eq, not_true_eq_false, or_self, if_false,
      not_false_eq_true, not_true, or_false, false_or]
    all_goals repeat' split
    all_goals simp_all
    all_goals subst_vars
    all_goals simp

/-- C1: (corrected) for every retired instruction, either the cycle counter
increases by exactly 1 and `pc` advances to old-pc + 4 (fall-through
instructions), or — for taken branches, whose `continue` skips the loop tail
`pc += 4; cycles_so_far++` — the cycle counter is unchanged and `pc` equals
the branch's computed target. -/
theorem C1_retired_instruction_step (mem : Mem) (s s1 : Arm64)
    (h : run_body mem s = .next s1) :
    (s1.pc = (s.pc + 4) % M64 ∧ s1.cycles_so_far = (s.cycles_so_far + 1) % M64) ∨
    (s1.cycles_so_far = s.cycles_so_far ∧
      branch_target (getui32 mem s.pc) s = some s1.pc) := by
  rcases run_body_next_cases mem s s1 h with ⟨hp, hc, _⟩ | ⟨hc, _, ht⟩
  · exact Or.inl ⟨hp, hc⟩
  · exact Or.inr ⟨hc, ht⟩

/-- Witness for C1 at the concrete taken branch `B +8`. -/
theorem C1_witness :
    run_body memB machineB = .next machineB8 ∧
    ((machineB8.pc = (machineB.pc + 4) % M64 ∧
      machineB8.cycles_so_far = (machineB.cycles_so_far + 1) % M64) ∨
     (machineB8.cycles_so_far = machineB.cycles_so_far ∧
      branch_target (getui32 memB machineB.pc) machineB = some machineB8.pc)) :=
  ⟨rfl, C1_retired_instruction_step memB machineB machineB8 rfl⟩

/-- Counterexample to C1 as stated: the taken `B +8` retires with the cycle
counter unchanged (5, not 5 + 1). -/
theorem C1_counterexample :
    (run_body memB machineB).cyclesAfter = some machineB.cycles_so_far ∧
    (run_body memB machineB).pcAfter = some 8 ∧
    machineB.cycles_so_far = 5 ∧ (5 : Nat) ≠ 5 + 1 :=
  ⟨rfl, rfl, rfl, by decide⟩

/-- C2: (code bug) X-form SDIV with divisor register 0 skips the register
write entirely (the destination keeps its stale value 5 instead of 0), and
W-form UDIV with a divisor whose low 32 bits are zero but whose 64-bit value
is nonzero reaches a host division by zero. -/
theorem C2_division_by_zero_bug :
    exec_dp_2src (mk_machine regsC2) 0x9ac00c22 0x9a = .fellThrough (mk_machine regsC2) ∧
    regsC2 0 = 0 ∧ regsC2 2 = 5 ∧ (5 : Nat) ≠ 0 ∧
    exec_dp_2src (mk_machine regsC2u) 0x1ac00822 0x1a = .hostDivByZero ∧
    regsC2u 0 ≠ 0 ∧ regsC2u 0 &&& 0xffffffff = 0 :=
  ⟨rfl, rfl, rfl, by decide, rfl, by decide, by decide⟩

/-- C3: (code bug) the scalar double FADD arm writes bytes 0..7 of `v[d]`
and leaves bytes 8..15 unchanged (no `memset`: byte 8 keeps 0xab), while the
FABS arm zeroes bytes 8..15 as the claim requires for all scalar writes. -/
theorem C3_scalar_fp_high_bytes :
    (∀ (f64add : Nat → Nat → Nat) (vn vm vd : VReg) (i : Nat), 8 ≤ i →
      fadd_scalar_double f64add vn vm vd i = vd i) ∧
    fadd_scalar_double (fun x y => x + y) vregZero vregZero vregC3 8 = 0xab ∧
    (0xab : Nat) ≠ 0 ∧
    (∀ (f64abs : Nat → Nat) (vn vd : VReg) (i : Nat), 8 ≤ i →
      fabs_scalar_double f64abs vn vd i = 0) := by
  refine ⟨?_, rfl, by decide, ?_⟩
  · intro f vn vm vd i hi
    dsimp only [fadd_scalar_double]
    rw [if_neg (by omega)]
  · intro f vn vd i hi
    dsimp only [fabs_scalar_double]
    rw [if_neg (by omega)]

theorem C3_witness :
    (8 : Nat) ≤ 8 ∧
    fadd_scalar_double (fun x y => x + y) vregZero vregZero vregC3 8 = vregC3 8 ∧
    fabs_scalar_double (fun x => x) vregZero vregC3 8 = 0 :=
  ⟨by decide, C3_scalar_fp_high_bytes.1 _ _ _ _ 8 (by decide),
   C3_scalar_fp_high_bytes.2.2.2 _ _ _ 8 (by decide)⟩

/-- Witness for C4 at x = 3, y = 5. -/
theorem C4_witness :
    (3 : Nat) < M64 ∧ (5 : Nat) < M64 ∧
    (machine0.add_with_carry64 3 (c_not64 5) true true).1.fC = decide ((5 : Nat) ≤ 3) :=
  ⟨by decide, by decide, (C4_subs_flags machine0 3 5 (by decide) (by decide)).2.2.2.1⟩

/-- C7: (corrected) the dispatch loop exits exactly when the end-emulation
bit is observed set — sampled after the instruction fetch, with the bit
cleared and nothing executed — or when `cycles_so_far` reaches the target,
and `run` returns the uint64 difference of the cycle counters, which counts
only fall-through instructions, not every dispatched instruction. -/
theorem C7_run_termination (mem : Mem) (fuel target : Nat) :
    (∀ s : Arm64, s.gState &&& stateEndEmulation ≠ 0 →
      run_body mem s = .exitEnd { s with gState := s.gState &&& 0xfffffffd }) ∧
    (∀ s s1 : Arm64, runLoop mem fuel s target = some (.ok s1) →
      (∃ s0 : Arm64, run_body mem s0 = .exitEnd s1) ∨ target ≤ s1.cycles_so_far) ∧
    (∀ (s s1 : Arm64) (max_cycles k : Nat), run mem fuel s max_cycles = some (k, s1) →
      k = (s1.cycles_so_far + M64 - s.cycles_so_far) % M64) := by
  refine ⟨?_, ?_, ?_⟩
  · intro s h
    dsimp only [run_body]
    rw [if_pos h]
  · induction fuel with
    | zero =>
      intro s s1 h
      simp only [runLoop] at h
      exact Option.noConfusion h
    | succ f ih =>
      intro s s1 h
      rw [runLoop] at h
      split at h
      · rename_i s2 hb
        injection h with h
        injection h with h
        subst h
        exact Or.inl ⟨s, hb⟩
      · rename_i hb
        injection h with h
        cases h
      · rename_i s2 hb
        split at h
        · exact ih s2 s1 h
        · rename_i hge
          injection h with h
          injection h with h
          subst h
          exact Or.inr (Nat.le_of_not_lt hge)
  · intro s s1 max_cycles k h
    dsimp only [run] at h
    split at h
    · rename_i s2 heq
      injection h with h
      injection h with h1 h2
      subst h1
      subst h2
      rfl
    · cases h

/-- Witness for C7 on a state with the end-emulation bit set. -/
theorem C7_witness :
    machineG2.gState &&& stateEndEmulation ≠ 0 ∧
    run_body memC7 machineG2 =
      .exitEnd { machineG2 with gState := machineG2.gState &&& 0xfffffffd } :=
  ⟨by decide, (C7_run_termination memC7 10 2).1 machineG2 (by decide)⟩

/-- Counterexample to C7 as stated: `run` with `max_cycles = 2` over
`B +8; ADDS; ADDS` returns 2 although 3 instructions were fetched and
executed. -/
theorem C7_counterexample :
    (run memC7 10 machine0 2).map Prod.fst = some 2 ∧
    instructions_executed memC7 10 machine0 ((machine0.cycles_so_far + 2) % M64) = some 3 ∧
    (2 : Nat) ≠ 3 :=
  ⟨rfl, rfl, by decide⟩

/-- The C arithmetic right shift (complement trick) equals the floor
division of the signed interpretation. -/
theorem asr64_eq_spec (v k : Nat) (hv : v < M64) :
    asr64 v k = asr64_spec v k := by
  have hbp : 0 < 2 ^ k := Nat.pos_pow_of_pos k (by norm_num)
  have hdm := Nat.div_add_mod v (2 ^ k)
  have hml := Nat.mod_lt v (show 0 < 2 ^ k from hbp)
  have hdm2 := Nat.div_add_mod (18446744073709551616 - 1 - v) (2 ^ k)
  have hml2 := Nat.mod_lt (18446744073709551616 - 1 - v) (show 0 < 2 ^ k from hbp)
  have hcast : ((2 ^ k : Nat) : Int) = (2 : Int) ^ k := by push_cast; ring
  have hbpos : (0 : Int) < ((2 ^ k : Nat) : Int) := by exact_mod_cast hbp
  have hble : (0 : Int) ≤ (2 : Int) ^ k := by positivity
  simp only [M64] at hv
  simp only [asr64, asr64_spec, toInt64, M64, Nat.mod_eq_of_lt hv,
    Nat.shiftRight_eq_div_pow, Int.fdiv_eq_ediv _ hble]
  rw [← hcast]
  by_cases h : v < 2 ^ 63
  · rw [if_pos h, if_pos h]
    have hE1 : (v : Int) / ((2 ^ k : Nat) : Int) = ((v / 2 ^ k : Nat) : Int) :=
      ((Int.ediv_emod_unique (r := ((v % 2 ^ k : Nat) : Int)) hbpos).mpr
        (by
          refine ⟨?_, by omega, by omega⟩
          rw [show ((2 ^ k : Nat) : Int) * ((v / 2 ^ k : Nat) : Int)
              = ((2 ^ k * (v / 2 ^ k) : Nat) : Int) by push_cast; ring]
          omega)).1
    rw [hE1]
    have hle : v / 2 ^ k ≤ v := Nat.div_le_self v (2 ^ k)
    generalize hq : v / 2 ^ k = q at hle ⊢
    omega
  · rw [if_neg h, if_neg h]
    have hE2 : ((v : Int) - ((18446744073709551616 : Nat) : Int)) / ((2 ^ k : Nat) : Int)
        = -(((18446744073709551616 - 1 - v) / 2 ^ k : Nat) : Int) - 1 :=
      ((Int.ediv_emod_unique
          (r := ((2 ^ k - 1 - (18446744073709551616 - 1 - v) % 2 ^ k : Nat) : Int)) hbpos).mpr
        (by
          refine ⟨?_, by omega, by omega⟩
          rw [show ((2 ^ k : Nat) : Int) *
                (-(((18446744073709551616 - 1 - v) / 2 ^ k : Nat) : Int) - 1)
              = -((2 ^ k * ((18446744073709551616 - 1 - v) / 2 ^ k) : Nat) : Int)
                  - ((2 ^ k : Nat) : Int)
            by push_cast; ring]
          omega)).1
    rw [hE2]
    have hle : (18446744073709551616 - 1 - v) / 2 ^ k ≤ 18446744073709551616 - 1 - v :=
      Nat.div_le_self _ _
    generalize hq : (18446744073709551616 - 1 - v) / 2 ^ k = q at hle ⊢
    omega

/-- C10: (amended) LSLV/LSRV/ASRV reduce the shift amount modulo the operand
width (64 / 32), so the host shift count is below the width and the ASRV
value matches the arithmetic-shift specification; RORV instead masks the
amount with 0x7f (X form) / 0x3f (W form), i.e. reduces it modulo 128 / 64
rather than modulo the width. -/
theorem C10_variable_shift_amounts (s : Arm64) (n mval am v : Nat) (hv : v < M64) :
    mval % 64 < 64 ∧ (mval &&& 0xffffffff) % 32 < 32 ∧
    shl64 v (mval % 64) = (v <<< (mval % 64)) % M64 ∧
    asr64 v (mval % 64) = asr64_spec v (mval % 64) ∧
    s.shift_reg64 n 3 am = s.shift_reg64 n 3 (am % 128) ∧
    s.shift_reg32 n 3 am = s.shift_reg32 n 3 (am % 64) := by
  have hand1 : am &&& 127 = am % 128 := by
    rw [show (127 : Nat) = 2 ^ 7 - 1 from rfl, Nat.and_pow_two_sub_one_eq_mod]
  have hand2 : am % 128 &&& 127 = am % 128 := by
    rw [show (127 : Nat) = 2 ^ 7 - 1 from rfl, Nat.and_pow_two_sub_one_eq_mod]
    omega
  have hand3 : am &&& 63 = am % 64 := by
    rw [show (63 : Nat) = 2 ^ 6 - 1 from rfl, Nat.and_pow_two_sub_one_eq_mod]
  have hand4 : am % 64 &&& 63 = am % 64 := by
    rw [show (63 : Nat) = 2 ^ 6 - 1 from rfl, Nat.and_pow_two_sub_one_eq_mod]
    omega
  refine ⟨by omega, by omega, ?_, asr64_eq_spec v (mval % 64) hv, ?_, ?_⟩
  · have hc : Nat.blt (mval % 64) 64 = true := by
      rw [Nat.blt_eq]
      omega
    simp only [shl64, hc, cond_true]
    rfl
  · simp only [Arm64.shift_reg64, hand1, hand2]
  · simp only [Arm64.shift_reg32, hand3, hand4]

/-- Counterexample to C10 as stated: X-form RORV with x0 = 65 writes 0,
not the rotation of x1 = 1 by 65 mod 64 (which is 2^63). -/
theorem C10_counterexample :
    ((exec_dp_2src (mk_machine regsC10) 0x9ac02c22 0x9a).regsOf).map (fun r => r 2) =
      some 0 ∧
    regsC10 0 = 65 ∧ regsC10 1 = 1 ∧
    ror_elem (regsC10 1) (regsC10 0 % 64) 64 = 2 ^ 63 ∧
    (0 : Nat) ≠ 2 ^ 63 :=
  ⟨rfl, rfl, rfl, by decide, by decide⟩

/-- Witness for C10 at v = 1, mval = am = 65. -/
theorem C10_witness :
    (1 : Nat) < M64 ∧
    (65 % 64 < 64 ∧ ((65 : Nat) &&& 0xffffffff) % 32 < 32 ∧
     shl64 1 (65 % 64) = ((1 : Nat) <<< (65 % 64)) % M64 ∧
     asr64 1 (65 % 64) = asr64_spec 1 (65 % 64) ∧
     machine0.shift_reg64 0 3 65 = machine0.shift_reg64 0 3 (65 % 128) ∧
     machine0.shift_reg32 0 3 65 = machine0.shift_reg32 0 3 (65 % 64)) :=
  ⟨by decide, C10_variable_shift_amounts machine0 0 65 65 1 (by decide)⟩


/-- C9: reading register field 31 in zero-register context yields 0, and
the flag-setting ADD/SUB immediate and register handlers with destination
field 31 leave the register file unchanged while computing the same NZCV
flags as the same instruction with destination field 0. -/
theorem C9_zero_register (s : Arm64) (op hi8 : Nat) (hd : op % 32 = 31) :
    s.val_reg_or_zr 31 = 0 ∧
    (exec_addsub_imm_flags s op hi8).regsOf = some s.regs ∧
    (exec_addsub_imm_flags s op hi8).flagsOf =
      (exec_addsub_imm_flags s (op - 31) hi8).flagsOf ∧
    (hi8 &&& 0x20 ≠ 0 →
      (exec_addsub_reg s op hi8).regsOf = some s.regs ∧
      (exec_addsub_reg s op hi8).flagsOf = (exec_addsub_reg s (op - 31) hi8).flagsOf) := by
  obtain ⟨h1, h2, h3⟩ := addsub_imm_zr_frame s op hi8 hd
  exact ⟨h1, h2, h3, fun hsf => addsub_reg_zr_frame s op hi8 hd hsf⟩

/-- Witness for C9 at `CMP x0, #0` (op 0xf100001f). -/
theorem C9_witness :
    (0xf100001f : Nat) % 32 = 31 ∧
    (machine0.val_reg_or_zr 31 = 0 ∧
     (exec_addsub_imm_flags machine0 0xf100001f 0xf1).regsOf = some machine0.regs ∧
     (exec_addsub_imm_flags machine0 0xf100001f 0xf1).flagsOf =
       (exec_addsub_imm_flags machine0 (0xf100001f - 31) 0xf1).flagsOf ∧
     ((0xf1 : Nat) &&& 0x20 ≠ 0 →
       (exec_addsub_reg machine0 0xf100001f 0xf1).regsOf = some machine0.regs ∧
       (exec_addsub_reg machine0 0xf100001f 0xf1).flagsOf =
         (exec_addsub_reg machine0 (0xf100001f - 31) 0xf1).flagsOf)) :=
  ⟨by decide, C9_zero_register machine0 0xf100001f 0xf1 (by decide)⟩

/-- Counterexample to C5's re-encoding identity: fields 124 and 380 (element
size 4, rotations 1 and 5) are both valid and decode to the same mask. -/
theorem C5_counterexample :
    valid_logical_imm 124 64 = true ∧ valid_logical_imm 380 64 = true ∧
    decode_logical_immediate 124 64 = decode_logical_immediate 380 64 ∧
    (124 : Nat) ≠ 380 :=
  ⟨by decide, by decide, by decide, by decide⟩

/-- One balanced-tree splitting step of `all_below` (for `2 ≤ n` neither
base case applies). -/
theorem all_below_split (f : Nat → Bool) (fuel lo n : Nat) (h2 : 2 ≤ n) :
    all_below f (fuel + 1) lo n =
      (all_below f fuel lo (n / 2) && all_below f fuel (lo + n / 2) (n - n / 2)) := by
  rw [all_below]
  rw [if_neg (by omega), if_neg (by omega)]

/-- Glue two true halves of an `all_below` range into the whole range (the
range checks are split across declarations so that each kernel evaluation
stays small). -/
theorem all_below_glue (f : Nat → Bool) (fuel lo n : Nat) (h2 : 2 ≤ n)
    (hL : all_below f fuel lo (n / 2) = true)
    (hR : all_below f fuel (lo + n / 2) (n - n / 2) = true) :
    all_below f (fuel + 1) lo n = true := by
  rw [all_below_split f fuel lo n h2, hL, hR]
  rfl

set_option maxRecDepth 100000 in
set_option maxHeartbeats 40000000 in
theorem c5x64_0 : all_below (logical_imm_field_ok 64) 10 0 512 = true := by decide

set_option maxRecDepth 100000 in
set_option maxHeartbeats 40000000 in
theorem c5x64_1 : all_below (logical_imm_field_ok 64) 10 512 512 = true := by decide

set_option maxRecDepth 100000 in
set_option maxHeartbeats 40000000 in
theorem c5x64_2 : all_below (logical_imm_field_ok 64) 10 1024 512 = true := by decide

set_option maxRecDepth 100000 in
set_option maxHeartbeats 40000000 in
theorem c5x64_3 : all_below (logical_imm_field_ok 64) 10 1536 512 = true := by decide

set_option maxRecDepth 100000 in
set_option maxHeartbeats 40000000 in
theorem c5x64_4 : all_below (logical_imm_field_ok 64) 10 2048 512 = true := by decide

set_option maxRecDepth 100000 in
set_option maxHeartbeats 40000000 in
theorem c5x64_5 : all_below (logical_imm_field_ok 64) 10 2560 512 = true := by decide

set_option maxRecDepth 100000 in
set_option maxHeartbeats 40000000 in
theorem c5x64_6 : all_below (logical_imm_field_ok 64) 10 3072 512 = true := by decide

set_option maxRecDepth 100000 in
set_option maxHeartbeats 40000000 in
theorem c5x64_7 : all_below (logical_imm_field_ok 64) 10 3584 512 = true := by decide

set_option maxRecDepth 100000 in
set_option maxHeartbeats 40000000 in
theorem c5x64_8 : all_below (logical_imm_field_ok 64) 10 4096 512 = true := by decide

set_option maxRecDepth 100000 in
set_option maxHeartbeats 40000000 in
theorem c5x64_9 : all_below (logical_imm_field_ok 64) 10 4608 512 = true := by decide

set_option maxRecDepth 100000 in
set_option maxHeartbeats 40000000 in
theorem c5x64_10 : all_below (logical_imm_field_ok 64) 10 5120 512 = true := by decide

set_option maxRecDepth 100000 in
set_option maxHeartbeats 40000000 in
theorem c5x64_11 : all_below (logical_imm_field_ok 64) 10 5632 512 = true := by decide

set_option maxRecDepth 100000 in
set_option maxHeartbeats 40000000 in
theorem c5x64_12 : all_below (logical_imm_field_ok 64) 10 6144 512 = true := by decide

set_option maxRecDepth 100000 in
set_option maxHeartbeats 40000000 in
theorem c5x64_13 : all_below (logical_imm_field_ok 64) 10 6656 512 = true := by decide

set_option maxRecDepth 100000 in
set_option maxHeartbeats 40000000 in
theorem c5x64_14 : all_below (logical_imm_field_ok 64) 10 7168 512 = true := by decide

set_option maxRecDepth 100000 in
set_option maxHeartbeats 40000000 in
theorem c5x64_15 : all_below (logical_imm_field_ok 64) 10 7680 512 = true := by decide

set_option maxRecDepth 100000 in
set_option maxHeartbeats 40000000 in
theorem c5x32_0 : all_below (logical_imm_field_ok 32) 10 0 512 = true := by decide

set_option maxRecDepth 100000 in
set_option maxHeartbeats 40000000 in
theorem c5x32_1 : all_below (logical_imm_field_ok 32) 10 512 512 = true := by decide

set_option maxRecDepth 100000 in
set_option maxHeartbeats 40000000 in
theorem c5x32_2 : all_below (logical_imm_field_ok 32) 10 1024 512 = true := by decide

set_option maxRecDepth 100000 in
set_option maxHeartbeats 40000000 in
theorem c5x32_3 : all_below (logical_imm_field_ok 32) 10 1536 512 = true := by decide

set_option maxRecDepth 100000 in
set_option maxHeartbeats 40000000 in
theorem c5x32_4 : all_below (logical_imm_field_ok 32) 10 2048 512 = true := by decide

set_option maxRecDepth 100000 in
set_option maxHeartbeats 40000000 in
theorem c5x32_5 : all_below (logical_imm_field_ok 32) 10 2560 512 = true := by decide

set_option maxRecDepth 100000 in
set_option maxHeartbeats 40000000 in
theorem c5x32_6 : all_below (logical_imm_field_ok 32) 10 3072 512 = true := by decide

set_option maxRecDepth 100000 in
set_option maxHeartbeats 40000000 in
theorem c5x32_7 : all_below (logical_imm_field_ok 32) 10 3584 512 = true := by decide

set_option maxRecDepth 100000 in
set_option maxHeartbeats 40000000 in
theorem c5x32_8 : all_below (logical_imm_field_ok 32) 10 4096 512 = true := by decide

set_option maxRecDepth 100000 in
set_option maxHeartbeats 40000000 in
theorem c5x32_9 : all_below (logical_imm_field_ok 32) 10 4608 512 = true := by decide

set_option maxRecDepth 100000 in
set_option maxHeartbeats 40000000 in
theorem c5x32_10 : all_below (logical_imm_field_ok 32) 10 5120 512 = true := by decide

set_option maxRecDepth 100000 in
set_option maxHeartbeats 40000000 in
theorem c5x32_11 : all_below (logical_imm_field_ok 32) 10 5632 512 = true := by decide

set_option maxRecDepth 100000 in
set_option maxHeartbeats 40000000 in
theorem c5x32_12 : all_below (logical_imm_field_ok 32) 10 6144 512 = true := by decide

set_option maxRecDepth 100000 in
set_option maxHeartbeats 40000000 in
theorem c5x32_13 : all_below (logical_imm_field_ok 32) 10 6656 512 = true := by decide

set_option maxRecDepth 100000 in
set_option maxHeartbeats 40000000 in
theorem c5x32_14 : all_below (logical_imm_field_ok 32) 10 7168 512 = true := by decide

set_option maxRecDepth 100000 in
set_option maxHeartbeats 40000000 in
theorem c5x32_15 : all_below (logical_imm_field_ok 32) 10 7680 512 = true := by decide

set_option maxRecDepth 100000 in
set_option maxHeartbeats 40000000 in
theorem c6part_0 : all_below (fun k =>
    decide (adv_simd_expand_imm (k / 4096) (k / 256 % 16) (k % 256) =
      expand_imm_table (k / 4096) (k / 256 % 16) (k % 256))) 12 0 2048 = true := by decide

set_option maxRecDepth 100000 in
set_option maxHeartbeats 40000000 in
theorem c6part_1 : all_below (fun k =>
    decide (adv_simd_expand_imm (k / 4096) (k / 256 % 16) (k % 256) =
      expand_imm_table (k / 4096) (k / 256 % 16) (k % 256))) 12 2048 2048 = true := by decide

set_option maxRecDepth 100000 in
set_option maxHeartbeats 40000000 in
theorem c6part_2 : all_below (fun k =>
    decide (adv_simd_expand_imm (k / 4096) (k / 256 % 16) (k % 256) =
      expand_imm_table (k / 4096) (k / 256 % 16) (k % 256))) 12 4096 2048 = true := by decide

set_option maxRecDepth 100000 in
set_option maxHeartbeats 40000000 in
theorem c6part_3 : all_below (fun k =>
    decide (adv_simd_expand_imm (k / 4096) (k / 256 % 16) (k % 256) =
      expand_imm_table (k / 4096) (k / 256 % 16) (k % 256))) 12 6144 2048 = true := by decide

/-- C5: (amended) on every valid 13-bit field, `decode_logical_immediate`
equals the reference pattern at destination widths 64 and 32, and on fields
whose rotation count is already reduced modulo the element size the decoded
mask re-encodes to the original field. -/
theorem C5_logical_imm_identity : checkC5_width 64 = true ∧ checkC5_width 32 = true :=
  ⟨all_below_glue _ 13 0 8192 (by norm_num)
        (all_below_glue _ 12 0 4096 (by norm_num)
          (all_below_glue _ 11 0 2048 (by norm_num)
            (all_below_glue _ 10 0 1024 (by norm_num)
              (c5x64_0)
              (c5x64_1))
            (all_below_glue _ 10 1024 1024 (by norm_num)
              (c5x64_2)
              (c5x64_3)))
          (all_below_glue _ 11 2048 2048 (by norm_num)
            (all_below_glue _ 10 2048 1024 (by norm_num)
              (c5x64_4)
              (c5x64_5))
            (all_below_glue _ 10 3072 1024 (by norm_num)
              (c5x64_6)
              (c5x64_7))))
        (all_below_glue _ 12 4096 4096 (by norm_num)
          (all_below_glue _ 11 4096 2048 (by norm_num)
            (all_below_glue _ 10 4096 1024 (by norm_num)
              (c5x64_8)
              (c5x64_9))
            (all_below_glue _ 10 5120 1024 (by norm_num)
              (c5x64_10)
              (c5x64_11)))
          (all_below_glue _ 11 6144 2048 (by norm_num)
            (all_below_glue _ 10 6144 1024 (by norm_num)
              (c5x64_12)
              (c5x64_13))
            (all_below_glue _ 10 7168 1024 (by norm_num)
              (c5x64_14)
              (c5x64_15)))),
   all_below_glue _ 13 0 8192 (by norm_num)
        (all_below_glue _ 12 0 4096 (by norm_num)
          (all_below_glue _ 11 0 2048 (by norm_num)
            (all_below_glue _ 10 0 1024 (by norm_num)
              (c5x32_0)
              (c5x32_1))
            (all_below_glue _ 10 1024 1024 (by norm_num)
              (c5x32_2)
              (c5x32_3)))
          (all_below_glue _ 11 2048 2048 (by norm_num)
            (all_below_glue _ 10 2048 1024 (by norm_num)
              (c5x32_4)
              (c5x32_5))
            (all_below_glue _ 10 3072 1024 (by norm_num)
              (c5x32_6)
              (c5x32_7))))
        (all_below_glue _ 12 4096 4096 (by norm_num)
          (all_below_glue _ 11 4096 2048 (by norm_num)
            (all_below_glue _ 10 4096 1024 (by norm_num)
              (c5x32_8)
              (c5x32_9))
            (all_below_glue _ 10 5120 1024 (by norm_num)
              (c5x32_10)
              (c5x32_11)))
          (all_below_glue _ 11 6144 2048 (by norm_num)
            (all_below_glue _ 10 6144 1024 (by norm_num)
              (c5x32_12)
              (c5x32_13))
            (all_below_glue _ 10 7168 1024 (by norm_num)
              (c5x32_14)
              (c5x32_15))))⟩

/-- C6: `adv_simd_expand_imm` agrees with the spec's eight-row Advanced SIMD
expand-immediate table on every `(op, cmode, imm8)` input. -/
theorem C6_expand_imm_matches_table : checkC6 = true :=
  all_below_glue _ 13 0 8192 (by norm_num)
    (all_below_glue _ 12 0 4096 (by norm_num) c6part_0 c6part_1)
    (all_below_glue _ 12 4096 4096 (by norm_num) c6part_2 c6part_3)

end ArmOS
